import Mathlib

/-!
# x-ipc-viewer: window creation and startup

A shallow embedding of `xwm/util.go` (`CreateXSubWindow`) and of the `Run`
function of `cmd/root.go`, together with the properties established about
them.

The X connection is modelled by the list of calls issued on it so far and a
`Server` that answers every call as a function of that history, so the
results hold for every (deterministic) display server.
-/

namespace XIpcViewer

/-! ## The X connection -/

/-- An X window id (`xproto.Window`, a 32 bit resource id). -/
abbrev XWindow := Nat

/-- A non-nil Go `error` value. A Go `error` is `Option XError`, `none` being `nil`. -/
structure XError where
  code : Nat
deriving DecidableEq, Repr

/-- Calls issued on the connection by `CreateXSubWindow`. -/
inductive Request where
  | NewWindowId
  | CreateWindow (depth : Nat) (wid parent : XWindow) (x y : Int)
      (width height borderWidth : Nat) (cls visual : Nat) (valueMask : Nat)
      (valueList : List Nat)
  | MapWindow (wid : XWindow)
  | DestroyWindow (wid : XWindow)
deriving DecidableEq, Repr

/-- The display server seen through the connection: what `xproto.NewWindowId`
returns and what `.Check()` of a checked request returns, given the calls
issued before. -/
structure Server where
  NewWindowId : List Request → XWindow × Option XError
  Check : List Request → Request → Option XError

/-- The connection `*xgb.Conn`: the calls issued on it so far, oldest first. -/
structure Conn where
  sent : List Request
deriving DecidableEq, Repr

namespace xproto

/-- Constant `xproto.WindowClassCopyFromParent`. -/
def WindowClassCopyFromParent : Nat := 0

/-- Constant `xproto.WindowClassInputOutput`. -/
def WindowClassInputOutput : Nat := 1

/-- The call `xproto.NewWindowId(x)`. -/
def NewWindowId (srv : Server) (x : Conn) : (XWindow × Option XError) × Conn :=
  (srv.NewWindowId x.sent, ⟨x.sent ++ [Request.NewWindowId]⟩)

/-- The call `xproto.CreateWindowChecked(x, ...).Check()`. -/
def CreateWindowCheckedCheck (srv : Server) (x : Conn) (depth : Nat) (wid parent : XWindow)
    (px py : Int) (width height borderWidth : Nat) (cls visual : Nat) (valueMask : Nat)
    (valueList : List Nat) : Option XError × Conn :=
  let r := Request.CreateWindow depth wid parent px py width height borderWidth cls visual
    valueMask valueList
  (srv.Check x.sent r, ⟨x.sent ++ [r]⟩)

/-- The call `xproto.MapWindowChecked(x, wid).Check()`. -/
def MapWindowCheckedCheck (srv : Server) (x : Conn) (wid : XWindow) : Option XError × Conn :=
  (srv.Check x.sent (Request.MapWindow wid), ⟨x.sent ++ [Request.MapWindow wid]⟩)

/-- The call `xproto.DestroyWindow(x, wid)` (unchecked: no reply is read). -/
def DestroyWindow (x : Conn) (wid : XWindow) : Conn :=
  ⟨x.sent ++ [Request.DestroyWindow wid]⟩

end xproto

/-- The create request `CreateXSubWindow` sends for window `wid` in `root`. -/
def createRequest (wid root : XWindow) : Request :=
  Request.CreateWindow xproto.WindowClassCopyFromParent wid root 0 0 1 1 0
    xproto.WindowClassInputOutput xproto.WindowClassCopyFromParent 0 []

/-- `xwm.CreateXSubWindow(x, root)`: returns `(wid, err)` and the connection
afterwards. The variable `err` tested after the create request is the one
assigned by `NewWindowId`: the result of `CreateWindowChecked(...).Check()` is
an expression statement whose value is dropped. -/
def CreateXSubWindow (srv : Server) (x : Conn) (root : XWindow) :
    (XWindow × Option XError) × Conn :=
  -- Generate X window id
  let r0 := xproto.NewWindowId srv x
  let wid := r0.1.1
  let err := r0.1.2
  let x := r0.2
  if err ≠ none then ((0, err), x) else
  -- Create X window in root
  let r1 := xproto.CreateWindowCheckedCheck srv x xproto.WindowClassCopyFromParent wid root
    0 0 1 1 0 xproto.WindowClassInputOutput xproto.WindowClassCopyFromParent 0 []
  let x := r1.2
  if err ≠ none then ((0, err), x) else
  -- Show X window
  let r2 := xproto.MapWindowCheckedCheck srv x wid
  let err := r2.1
  let x := r2.2
  if err ≠ none then
    let x := xproto.DestroyWindow x wid
    ((0, err), x)
  else
    ((wid, none), x)

/-- A server that allocates id 7, rejects every create request with error 3
and accepts every other checked request. -/
def rejectingServer : Server where
  NewWindowId := fun _ => (7, none)
  Check := fun _ r =>
    match r with
    | Request.CreateWindow .. => some ⟨3⟩
    | _ => none

/-- A server that allocates id 7, accepts create requests and rejects map
requests with error 9. -/
def mapRejectingServer : Server where
  NewWindowId := fun _ => (7, none)
  Check := fun _ r =>
    match r with
    | Request.MapWindow _ => some ⟨9⟩
    | _ => none

/-- A server that allocates the ids 100, 101, ... in call order and accepts
every request. -/
def acceptingServer : Server where
  NewWindowId := fun sent => (100 + sent.length, none)
  Check := fun _ _ => none

/-! ## Configuration, layouts, players and windows

The packages `config`, `mosaic`, `mpv` and the rest of `xwm` are used by
`Run` through the declarations below. -/

/-- Modelled from the spec: the type `Rect` of package `mosaic`/`config`
is `{x, y, width, height}` in root-surface pixel coordinates. -/
structure Rect where
  x : Nat
  y : Nat
  width : Nat
  height : Nat
deriving DecidableEq, Repr

namespace config

/-- Modelled from the spec: the type of `cfg.Layout`, either the automatic
grid marker or the marker of an explicit manual list. -/
inductive Layout where
  | auto
  | manual
deriving DecidableEq, Repr

/-- Modelled from the spec: `cfg.Layout.IsAuto()` recognises the automatic marker. -/
def Layout.IsAuto : Layout → Bool
  | Layout.auto => true
  | Layout.manual => false

/-- Modelled from the spec: one entry of `cfg.Windows`, with the fields `Run` reads:
backend flags, the low-latency toggle and the main/sub region Rects. -/
structure Window where
  Flags : List Nat
  LowLatency : Bool
  Main : Rect
  Sub : Rect
deriving DecidableEq, Repr

/-- The value `cfg.Player`, with the field `Run` reads. -/
structure Player where
  GPU : Bool
deriving DecidableEq, Repr

/-- The decoded configuration `cfg`, with the fields `Run` reads. -/
structure Config where
  Background : Nat
  Layout : Layout
  LayoutManualWindows : List Rect
  Player : Player
  Windows : List Window
deriving DecidableEq, Repr

end config

namespace mosaic

/-- Modelled from the spec: `mosaic.Layout` is the closed variant
`Grid(count)` / `Manual(list of Rect)`. -/
inductive Layout where
  | Grid (count : Nat)
  | Manual (rects : List Rect)
deriving DecidableEq, Repr

/-- The constructor `mosaic.NewLayoutGridCount(count)`. -/
def NewLayoutGridCount (count : Nat) : Layout := Layout.Grid count

/-- The constructor `mosaic.NewLayoutManual(rects)`. -/
def NewLayoutManual (rects : List Rect) : Layout := Layout.Manual rects

/-- The value `mosaic.New(layout)` handed to the manager. -/
structure Mosaic where
  layout : Layout
deriving DecidableEq, Repr

/-- The constructor `mosaic.New(layout)`. -/
def New (layout : Layout) : Mosaic := ⟨layout⟩

end mosaic

/-- Modelled from the spec: the Player capability is used as a value only;
the model records what it was created from (`mpv.NewPlayerFactory(flags, gpu,
lowLatency)` applied to a window id) and whether `xwm.NewPlayerCache` wraps it. -/
inductive Player where
  | mpv (flags : List Nat) (gpu lowLatency : Bool) (wid : XWindow)
  | cache (p : Player)
deriving DecidableEq, Repr

/-- Modelled from the spec: `xwm.Window` is `{surfaceId, player, mainRect, subRect,
background}`. -/
structure Window where
  surfaceId : XWindow
  player : Player
  mainRect : Rect
  subRect : Rect
  background : Nat
deriving DecidableEq, Repr

/-- The wrapper `xwm.NewPlayerCache(p)`. -/
def NewPlayerCache (p : Player) : Player := Player.cache p

/-- The constructor `xwm.NewWindow(w, p, main, sub, background)`. -/
def NewWindow (w : XWindow) (p : Player) (main sub : Rect) (background : Nat) : Window :=
  ⟨w, p, main, sub, background⟩

/-- What the collaborators of `Run` answer: the display server, the error
results of `xgb.NewConn`, `xcursor.CreateCursor` and `xwm.NewManager` (for the
mosaic it is given), the id `manager.WID()`, the error result of a player
factory applied to a window id, and whether `xwm.HandleEvent` ever returns. -/
structure Env where
  srv : Server
  NewConn : Option XError
  CreateCursor : Option XError
  NewManager : mosaic.Mosaic → Option XError
  WID : XWindow
  playerErr : List Nat → Bool → Bool → XWindow → Option XError
  HandleEventReturns : Bool

namespace mpv

/-- The call `mpv.NewPlayerFactory(flags, gpu, lowLatency)`: a function from a
window id to `(player, err)`. -/
def NewPlayerFactory (env : Env) (flags : List Nat) (gpu lowLatency : Bool) :
    XWindow → Player × Option XError :=
  fun w => (Player.mpv flags gpu lowLatency w, env.playerErr flags gpu lowLatency w)

end mpv

/-! ## `Run` as a transition system

`Run` starts one goroutine for the interrupt watcher and one per configured
window. The model has one program counter per goroutine; a step executes the
next statement of one goroutine, and every interleaving of steps is a run.
A call of `CreateXSubWindow` is one step. `log.Fatal`, `log.Fatalln` and
`os.Exit(1)` end the process with status 1, after which nothing steps (deferred
calls do not run). `xwm.HandleEvent` is the event loop; whether it ever returns
is up to the collaborators (`Env.HandleEventReturns`), and when it does the
deferred `manager.Release()` and `x.Close()` run and `Run` returns to
`Execute` and `main.main`, which ends the process with status 0. An interrupt
signal that arrives before `signal.Notify` kills the process. The calls made
inside `NewManager`, `AddWindows`, `HandleEvent` and `Release` are not part of
the model; the calls themselves are recorded. -/

/-- Calls `Run` makes that the properties speak about; `CreateXSubWindow i x root` is
the call `xwm.CreateXSubWindow(x, root)` of startup goroutine `i`, with the
connection as it is when the call is made; `Release` is the watcher's call of
`manager.Release()` and `DeferredRelease`, `Close` are the deferred calls of the
main goroutine. -/
inductive Event where
  | NewManager (m : mosaic.Mosaic)
  | CreateXSubWindow (i : Nat) (x : Conn) (root : XWindow)
  | PlayerFactory (i : Nat) (flags : List Nat) (gpu lowLatency : Bool) (w : XWindow)
  | AddWindows (windows : List (Option Window))
  | HandleEvent
  | Release
  | DeferredRelease
  | Close
  | Fatal (err : XError)
  | Exit (code : Nat)
deriving DecidableEq, Repr

/-- Where the main goroutine stands in `Run`. -/
inductive MainPc where
  | atNewConn
  | atCreateCursor
  | atNewManager
  | atNotify
  | atMakeWindows
  | atLoop
  | atWait
  | atAddWindows
  | atHandleEvent
  | inEventLoop
  | atDeferRelease
  | atDeferClose
  | returned
deriving DecidableEq, Repr

/-- Where the startup goroutine of one window stands, with its locals `w`, `p`, `err`. -/
inductive TaskPc where
  | atCreateXSubWindow
  | atPlayer (w : XWindow)
  | atStore (w : XWindow) (p : Player)
  | atDone (w : XWindow) (p : Player)
  | finished (w : XWindow) (p : Player)
  | atFatal (err : XError)
deriving DecidableEq, Repr

/-- Where the interrupt watcher goroutine stands. -/
inductive WatcherPc where
  | notStarted
  | atReceive
  | atRelease
  | atExit
  | exited
deriving DecidableEq, Repr

/-- Who takes the next step: a goroutine, or the delivery of an interrupt signal. -/
inductive Actor where
  | main
  | watcher
  | task (i : Nat)
  | interrupt
deriving DecidableEq, Repr

/-- How the process has ended: with an exit status, or killed by a signal. -/
inductive Ended where
  | status (code : Nat)
  | killed (signal : Nat)
deriving DecidableEq, Repr

/-- The signal number of `os.Interrupt` (SIGINT). -/
def SIGINT : Nat := 2

/-- The state of the process. `windows` holds `none` for a slot that still has
its zero value; `c` tells whether the signal channel (capacity 1) holds a
signal; `exit` tells how the process has ended, once it has. -/
structure State where
  main : MainPc
  watcher : WatcherPc
  tasks : List TaskPc
  x : Conn
  c : Bool
  windows : List (Option Window)
  wg : Int
  trace : List Event
  exit : Option Ended
deriving DecidableEq, Repr

/-- The state when `Run` is entered. -/
def State.initial : State :=
  ⟨MainPc.atNewConn, WatcherPc.notStarted, [], ⟨[]⟩, false, [], 0, [], none⟩

/-- The calls `log.Fatal(err)` and `log.Fatalln(err)`: report and exit with status 1. -/
def fatal (err : XError) (s : State) : State :=
  { s with trace := s.trace ++ [Event.Fatal err], exit := some (Ended.status 1) }

/-- The layout `Run` selects (`// Layout`). -/
def selectLayout (cfg : config.Config) : mosaic.Layout :=
  if cfg.Layout.IsAuto then
    mosaic.NewLayoutGridCount cfg.Windows.length
  else
    mosaic.NewLayoutManual cfg.LayoutManualWindows

/-- One step of the main goroutine. -/
def stepMain (cfg : config.Config) (env : Env) (s : State) : Option State :=
  match s.main with
  | MainPc.atNewConn =>
    -- x, err := xgb.NewConn(); if err != nil { log.Fatalln(err) }
    match env.NewConn with
    | some err => some (fatal err s)
    | none => some { s with main := MainPc.atCreateCursor }
  | MainPc.atCreateCursor =>
    -- cursor, err := xcursor.CreateCursor(x, xcursor.LeftPtr)
    match env.CreateCursor with
    | some err => some (fatal err s)
    | none => some { s with main := MainPc.atNewManager }
  | MainPc.atNewManager =>
    -- layout selection; manager, err := xwm.NewManager(x, screen, cursor, mosaic.New(layout))
    let m := mosaic.New (selectLayout cfg)
    let s1 := { s with trace := s.trace ++ [Event.NewManager m] }
    match env.NewManager m with
    | some err => some (fatal err s1)
    | none => some { s1 with main := MainPc.atNotify }
  | MainPc.atNotify =>
    -- c := make(chan os.Signal, 1); signal.Notify(c, os.Interrupt); go func() { ... }()
    some { s with main := MainPc.atMakeWindows, watcher := WatcherPc.atReceive, c := false }
  | MainPc.atMakeWindows =>
    -- windows := make([]xwm.Window, len(cfg.Windows)); wg := sync.WaitGroup{}
    some { s with main := MainPc.atLoop, windows := List.replicate cfg.Windows.length none,
                  wg := 0 }
  | MainPc.atLoop =>
    -- for i := range cfg.Windows { wg.Add(1); go func(i int) { ... }(i) }
    if s.tasks.length < cfg.Windows.length then
      some { s with wg := s.wg + 1, tasks := s.tasks ++ [TaskPc.atCreateXSubWindow] }
    else
      some { s with main := MainPc.atWait }
  | MainPc.atWait =>
    -- wg.Wait()
    if s.wg = 0 then some { s with main := MainPc.atAddWindows } else none
  | MainPc.atAddWindows =>
    -- manager.AddWindows(x, windows)
    some { s with main := MainPc.atHandleEvent,
                  trace := s.trace ++ [Event.AddWindows s.windows] }
  | MainPc.atHandleEvent =>
    -- xwm.HandleEvent(x, manager)
    some { s with main := MainPc.inEventLoop, trace := s.trace ++ [Event.HandleEvent] }
  | MainPc.inEventLoop =>
    -- xwm.HandleEvent returns, or never does
    if env.HandleEventReturns then some { s with main := MainPc.atDeferRelease } else none
  | MainPc.atDeferRelease =>
    -- defer manager.Release()
    some { s with main := MainPc.atDeferClose, trace := s.trace ++ [Event.DeferredRelease] }
  | MainPc.atDeferClose =>
    -- defer x.Close()
    some { s with main := MainPc.returned, trace := s.trace ++ [Event.Close] }
  | MainPc.returned =>
    -- Run returns; rootCmd.Execute() returns nil; Execute and main.main return
    some { s with exit := some (Ended.status 0) }

/-- One step of the startup goroutine `go func(i int) { ... }(i)`. -/
def stepTask (cfg : config.Config) (env : Env) (i : Nat) (s : State) : Option State :=
  match s.tasks[i]?, cfg.Windows[i]? with
  | some pc, some wc =>
    match pc with
    | TaskPc.atCreateXSubWindow =>
      -- w, err := xwm.CreateXSubWindow(x, manager.WID()); if err != nil { log.Fatal(err) }
      let r := CreateXSubWindow env.srv s.x env.WID
      let s1 := { s with x := r.2,
                         trace := s.trace ++ [Event.CreateXSubWindow i s.x env.WID] }
      match r.1.2 with
      | some err => some { s1 with tasks := s1.tasks.set i (TaskPc.atFatal err) }
      | none => some { s1 with tasks := s1.tasks.set i (TaskPc.atPlayer r.1.1) }
    | TaskPc.atPlayer w =>
      -- pf := mpv.NewPlayerFactory(...); p, err := pf(w); if err != nil { log.Fatal(err) }
      let pf := mpv.NewPlayerFactory env wc.Flags cfg.Player.GPU wc.LowLatency
      let r := pf w
      let s1 := { s with trace := s.trace ++
        [Event.PlayerFactory i wc.Flags cfg.Player.GPU wc.LowLatency w] }
      match r.2 with
      | some err => some { s1 with tasks := s1.tasks.set i (TaskPc.atFatal err) }
      | none => some { s1 with tasks := s1.tasks.set i (TaskPc.atStore w r.1) }
    | TaskPc.atStore w p =>
      -- p = xwm.NewPlayerCache(p); windows[i] = xwm.NewWindow(w, p, Main, Sub, cfg.Background)
      let p1 := NewPlayerCache p
      some { s with
        windows := s.windows.set i (some (NewWindow w p1 wc.Main wc.Sub cfg.Background)),
        tasks := s.tasks.set i (TaskPc.atDone w p) }
    | TaskPc.atDone w p =>
      -- wg.Done()
      some { s with wg := s.wg - 1, tasks := s.tasks.set i (TaskPc.finished w p) }
    | TaskPc.finished _ _ => none
    | TaskPc.atFatal err =>
      -- log.Fatal(err)
      some (fatal err s)
  | _, _ => none

/-- One step of the watcher `go func() { <-c; manager.Release(); os.Exit(1) }()`. -/
def stepWatcher (s : State) : Option State :=
  match s.watcher with
  | WatcherPc.notStarted => none
  | WatcherPc.atReceive =>
    -- <-c
    if s.c then some { s with c := false, watcher := WatcherPc.atRelease } else none
  | WatcherPc.atRelease =>
    -- manager.Release()
    some { s with trace := s.trace ++ [Event.Release], watcher := WatcherPc.atExit }
  | WatcherPc.atExit =>
    -- os.Exit(1)
    some { s with trace := s.trace ++ [Event.Exit 1], watcher := WatcherPc.exited,
                  exit := some (Ended.status 1) }
  | WatcherPc.exited => none

/-- Delivery of an interrupt signal. Before `signal.Notify` the signal has its
default effect and kills the process; afterwards it is put into the channel
`c`, and a signal arriving while the channel is full is dropped. -/
def stepInterrupt (s : State) : Option State :=
  if s.watcher = WatcherPc.notStarted then
    some { s with exit := some (Ended.killed SIGINT) }
  else
    some { s with c := true }

/-- One step of the process; `none` when the actor cannot step (blocked, returned,
not started) or the process has ended. -/
def step (cfg : config.Config) (env : Env) (a : Actor) (s : State) : Option State :=
  if s.exit ≠ none then none else
  match a with
  | Actor.main => stepMain cfg env s
  | Actor.watcher => stepWatcher s
  | Actor.task i => stepTask cfg env i s
  | Actor.interrupt => stepInterrupt s

/-- The state after the actors of a schedule have been given a turn in order;
an actor that cannot step leaves the state unchanged. -/
def exec (cfg : config.Config) (env : Env) : List Actor → State → State
  | [], s => s
  | a :: rest, s => exec cfg env rest ((step cfg env a s).getD s)

/-- The run of `Run` under a schedule. -/
def Run (cfg : config.Config) (env : Env) (sched : List Actor) : State :=
  exec cfg env sched State.initial

namespace config

/-- Modelled from the spec: the configuration error that `config.Decode` reports
for a manual layout whose number of Rects differs from the number of windows. -/
def ErrLayoutCount : XError := ⟨1⟩

/-- Modelled from the spec: `config.Decode(&cfg)`, which is not among the sources,
applied to the document that was read: it fills `cfg` and returns an error when
the layout is a manual list whose count differs from the number of `windows`
(the spec: one manual Rect per window, count must equal `windows` length). -/
def Decode (doc : Config) : Config × Option XError :=
  (doc, if doc.Layout.IsAuto = false ∧ doc.LayoutManualWindows.length ≠ doc.Windows.length
    then some ErrLayoutCount else none)

end config

/-- What `viper.ReadInConfig()` yields: an error (no configuration file was
read), or the document of the configuration file. -/
inductive ConfigFile where
  | unread
  | read (doc : config.Config)
deriving DecidableEq, Repr

/-- `initConfig`: when a configuration file was read it is decoded into `cfg`, and
a decoding error is fatal (`log.Fatalf`); otherwise `cfg` keeps its zero value
`zero`. The result is the error of the fatal path, or `cfg`. -/
def initConfig (zero : config.Config) (file : ConfigFile) : Except XError config.Config :=
  match file with
  | ConfigFile.unread => Except.ok zero
  | ConfigFile.read doc =>
    -- if err = config.Decode(&cfg); err != nil { log.Fatalf(...) }
    match (config.Decode doc).2 with
    | some err => Except.error err
    | none => Except.ok (config.Decode doc).1

/-- The process from its start: `initConfig`, which cobra runs before `Run`, and
then `Run` on the decoded configuration under a schedule. -/
def Main (zero : config.Config) (file : ConfigFile) (env : Env) (sched : List Actor) : State :=
  match initConfig zero file with
  | Except.error err => fatal err State.initial
  | Except.ok cfg => Run cfg env sched

/-- An environment in which every collaborator succeeds; the manager window is 1. -/
def okEnv : Env where
  srv := acceptingServer
  NewConn := none
  CreateCursor := none
  NewManager := fun _ => none
  WID := 1
  playerErr := fun _ _ _ _ => none
  HandleEventReturns := false

/-- A 10x10 region at the origin. -/
def r10 : Rect := ⟨0, 0, 10, 10⟩

/-- A configuration with two windows and the automatic layout. -/
def cfgAuto2 : config.Config where
  Background := 0
  Layout := config.Layout.auto
  LayoutManualWindows := []
  Player := ⟨true⟩
  Windows := [⟨[1], false, r10, r10⟩, ⟨[2], true, r10, r10⟩]

/-- A schedule that lets the main goroutine start everything, then the two
tasks run to completion one after the other, then the main goroutine goes on. -/
def schedSeq2 : List Actor :=
  List.replicate 8 Actor.main ++ List.replicate 4 (Actor.task 1) ++
    List.replicate 4 (Actor.task 0) ++ List.replicate 3 Actor.main

/-! ## The Grid layout -/

namespace mosaic

/-- Modelled from the spec: the column count of the Grid layout, which package
`mosaic` computes, is not among the sources and its policy is left open; the
tie-break taken here is the least `c ≥ 1` with `n ≤ c * c`, found by counting
up from `c` with `fuel` tries. -/
def gridColumnsFrom (n : Nat) : Nat → Nat → Nat
  | 0, c => c
  | fuel + 1, c => if n ≤ c * c then c else gridColumnsFrom n fuel (c + 1)

/-- Modelled from the spec: the number of columns of the Grid for `n` windows. -/
def gridColumns (n : Nat) : Nat := gridColumnsFrom n n 1

/-- Modelled from the spec: the number of rows of the Grid for `n` windows, the
least number of rows of `gridColumns n` cells holding `n` cells. -/
def gridRows (n : Nat) : Nat := (n + gridColumns n - 1) / gridColumns n

/-- Modelled from the spec: piece `j` (offset, size) of a length `total` cut into
`k` equal-sized pieces of `total / k` pixels; what is left of the length after
the `k` pieces belongs to no piece. -/
def gridEqual (k total j : Nat) : Nat × Nat :=
  (j * (total / k), total / k)

/-- Modelled from the spec: piece `j` (offset, size) of a length `total` cut into
`k` pieces with remainder handling: the pieces are equal-sized and the last one
takes the remainder. It is used for the last row only: for its height and for
the widths of its cells. -/
def gridPiece (k total j : Nat) : Nat × Nat :=
  (j * (total / k), if j + 1 = k then total - j * (total / k) else total / k)

/-- Modelled from the spec: the number of cells in row `row` of the Grid for `n`
windows; the last row holds the remaining windows. -/
def gridRowCells (n row : Nat) : Nat :=
  if row + 1 = gridRows n then n - row * gridColumns n else gridColumns n

/-- Modelled from the spec: the Rect of window `i` in the Grid for `n` windows on a
root of size `W` x `H`, in row-major order. The cells are equal-sized,
`W / columns` by `H / rows`, except for the remainder handling on the last row:
the last row takes the remaining height, and its cells (the remaining windows)
share the whole width, the last of them taking the remainder. -/
def gridCell (n W H i : Nat) : Rect :=
  let row := i / gridColumns n
  let col := i % gridColumns n
  let px := if row + 1 = gridRows n then gridPiece (gridRowCells n row) W col
    else gridEqual (gridColumns n) W col
  let py := gridPiece (gridRows n) H row
  { x := px.1, y := py.1, width := px.2, height := py.2 }

/-- Modelled from the spec: the Rects of the Grid layout for `n` windows on a root
of size `W` x `H`, one per window index (the Grid computation of package
`mosaic` is not among the sources). -/
def gridRects (n W H : Nat) : List Rect :=
  (List.range n).map (gridCell n W H)

/-- Modelled from the spec: the contract `compute(layout, windowCount)` at root
size `W` x `H`; the Manual variant returns the configured Rects verbatim. -/
def compute (layout : Layout) (W H : Nat) : List Rect :=
  match layout with
  | Layout.Grid n => gridRects n W H
  | Layout.Manual rects => rects

end mosaic

/-- The pixel `(px, py)` lies in the Rect. -/
def Rect.contains (r : Rect) (px py : Nat) : Prop :=
  r.x ≤ px ∧ px < r.x + r.width ∧ r.y ≤ py ∧ py < r.y + r.height

instance (r : Rect) (px py : Nat) : Decidable (r.contains px py) := by
  unfold Rect.contains
  infer_instance

/-- An environment in which the display server rejects every map request, so
that every `CreateXSubWindow` call returns error 9; all else succeeds. -/
def failEnv : Env where
  srv := mapRejectingServer
  NewConn := none
  CreateCursor := none
  NewManager := fun _ => none
  WID := 1
  playerErr := fun _ _ _ _ => none
  HandleEventReturns := false

/-- An environment in which every player factory returns error 5; all else
succeeds. -/
def playerFailEnv : Env where
  srv := acceptingServer
  NewConn := none
  CreateCursor := none
  NewManager := fun _ => none
  WID := 1
  playerErr := fun _ _ _ _ => some ⟨5⟩
  HandleEventReturns := false

/-- A configuration with a manual layout of two Rects and three windows. -/
def cfgManual3 : config.Config where
  Background := 0
  Layout := config.Layout.manual
  LayoutManualWindows := [r10, ⟨10, 0, 10, 10⟩]
  Player := ⟨false⟩
  Windows := [⟨[], false, r10, r10⟩, ⟨[], false, r10, r10⟩, ⟨[], false, r10, r10⟩]

/-- A configuration with one window and the given background fill. -/
def cfgOne (background : Nat) : config.Config where
  Background := background
  Layout := config.Layout.auto
  LayoutManualWindows := []
  Player := ⟨true⟩
  Windows := [⟨[4], true, r10, ⟨2, 2, 3, 3⟩⟩]

/-- The main goroutine runs up to the first `go` of the loop, then the startup
goroutine of window 0 calls `CreateXSubWindow`. -/
def schedFirstTask : List Actor :=
  List.replicate 6 Actor.main ++ [Actor.task 0]

/-- After `schedFirstTask`: an interrupt is delivered, the startup goroutine of
window 0 takes its next step, and then the watcher gets three turns. -/
def schedRace : List Actor :=
  schedFirstTask ++ [Actor.interrupt, Actor.task 0, Actor.watcher, Actor.watcher,
    Actor.watcher]

/-- Three windows started by the main goroutine, each startup goroutine run to
completion in turn, then the main goroutine goes on. -/
def schedSeq3 : List Actor :=
  List.replicate 9 Actor.main ++ List.replicate 4 (Actor.task 0) ++
    List.replicate 4 (Actor.task 1) ++ List.replicate 4 (Actor.task 2) ++
    List.replicate 3 Actor.main

/-- One window started and run to completion, then the main goroutine goes on. -/
def schedSeq1 : List Actor :=
  List.replicate 7 Actor.main ++ List.replicate 4 (Actor.task 0) ++
    List.replicate 3 Actor.main

/-- As `schedSeq2`, but the startup goroutine of window 0 runs to completion
before the one of window 1. -/
def schedSeq2b : List Actor :=
  List.replicate 8 Actor.main ++ List.replicate 4 (Actor.task 0) ++
    List.replicate 4 (Actor.task 1) ++ List.replicate 3 Actor.main

/-- The main goroutine runs up to the return of `xwm.NewManager`; `signal.Notify`
is the next statement. -/
def schedManager : List Actor :=
  [Actor.main, Actor.main, Actor.main]

/-- A configuration with a manual layout of three Rects and three windows. -/
def cfgManualOk : config.Config where
  Background := 0
  Layout := config.Layout.manual
  LayoutManualWindows := [r10, ⟨10, 0, 10, 10⟩, ⟨20, 0, 10, 10⟩]
  Player := ⟨false⟩
  Windows := [⟨[], false, r10, r10⟩, ⟨[], false, r10, r10⟩, ⟨[], false, r10, r10⟩]

/-! ## Reading a state -/

/-- The position of the main goroutine as a number, in program order. -/
def MainPc.rank : MainPc → Nat
  | MainPc.atNewConn => 0
  | MainPc.atCreateCursor => 1
  | MainPc.atNewManager => 2
  | MainPc.atNotify => 3
  | MainPc.atMakeWindows => 4
  | MainPc.atLoop => 5
  | MainPc.atWait => 6
  | MainPc.atAddWindows => 7
  | MainPc.atHandleEvent => 8
  | MainPc.inEventLoop => 9
  | MainPc.atDeferRelease => 10
  | MainPc.atDeferClose => 11
  | MainPc.returned => 12

/-- The startup goroutine has called `wg.Done()`. -/
def TaskPc.isFinished : TaskPc → Bool
  | TaskPc.finished _ _ => true
  | _ => false

/-- The startup goroutine has written its slot of `windows`: its locals `w`, `p`. -/
def TaskPc.stored : TaskPc → Option (XWindow × Player)
  | TaskPc.atDone w p => some (w, p)
  | TaskPc.finished w p => some (w, p)
  | _ => none

/-- The startup goroutine has created its player: its locals `w`, `p`. -/
def TaskPc.created : TaskPc → Option (XWindow × Player)
  | TaskPc.atStore w p => some (w, p)
  | TaskPc.atDone w p => some (w, p)
  | TaskPc.finished w p => some (w, p)
  | _ => none

/-- The local `w` of a startup goroutine whose `CreateXSubWindow` call has
returned without error. -/
def TaskPc.surface : TaskPc → Option XWindow
  | TaskPc.atPlayer w => some w
  | TaskPc.atStore w _ => some w
  | TaskPc.atDone w _ => some w
  | TaskPc.finished w _ => some w
  | _ => none

/-- The connection states at which startup goroutine `i` has called
`CreateXSubWindow`, in call order. -/
def createCalls (t : List Event) (i : Nat) : List Conn :=
  t.filterMap fun e =>
    match e with
    | Event.CreateXSubWindow j x _ => if j = i then some x else none
    | _ => none

/-- The number of started startup goroutines that have not called `wg.Done()`. -/
def unfinished : List TaskPc → Nat
  | [] => 0
  | t :: ts => (if t.isFinished then 0 else 1) + unfinished ts

/-- The arguments of the `manager.AddWindows` calls in a trace, in call order. -/
def addWindowsCalls (t : List Event) : List (List (Option Window)) :=
  t.filterMap fun e =>
    match e with
    | Event.AddWindows ws => some ws
    | _ => none

/-- The window `windows[i]` that startup goroutine `i` builds from its locals. -/
def windowOf (cfg : config.Config) (wc : config.Window) (w : XWindow) (p : Player) : Window :=
  NewWindow w (NewPlayerCache p) wc.Main wc.Sub cfg.Background

/-- What holds of the goroutines, the wait group and the `windows` slice in
every state of `Run`. -/
structure InvData (cfg : config.Config) (env : Env) (s : State) : Prop where
  tasks_le : s.tasks.length ≤ cfg.Windows.length
  tasks_nil : s.main.rank < 5 → s.tasks = []
  tasks_all : 6 ≤ s.main.rank → s.tasks.length = cfg.Windows.length
  windows_len : 5 ≤ s.main.rank → s.windows.length = cfg.Windows.length
  wg_eq : s.wg = (unfinished s.tasks : Int)
  past_wait : 7 ≤ s.main.rank → unfinished s.tasks = 0
  slot : ∀ (i : Nat) (t : TaskPc) (w : XWindow) (p : Player), s.tasks[i]? = some t →
    t.stored = some (w, p) →
    ∃ wc : config.Window, cfg.Windows[i]? = some wc ∧
      s.windows[i]? = some (some (windowOf cfg wc w p))
  player : ∀ (i : Nat) (t : TaskPc) (w : XWindow) (p : Player), s.tasks[i]? = some t →
    t.created = some (w, p) →
    ∃ wc : config.Window, cfg.Windows[i]? = some wc ∧
      mpv.NewPlayerFactory env wc.Flags cfg.Player.GPU wc.LowLatency w = (p, none)
  started : (1 ≤ s.main.rank → env.NewConn = none) ∧
    (2 ≤ s.main.rank → env.CreateCursor = none) ∧
    (3 ≤ s.main.rank → env.NewManager (mosaic.New (selectLayout cfg)) = none)

/-- What holds of the watcher and the exit status in every state of `Run`. -/
structure InvWatch (s : State) : Prop where
  watcher_started : s.watcher = WatcherPc.notStarted ↔ s.main.rank ≤ 3
  exit_code : ∀ e, s.exit = some e → e = Ended.status 1 ∨
    (e = Ended.killed SIGINT ∧ s.main.rank ≤ 3) ∨ (e = Ended.status 0 ∧ s.main.rank = 12)
  watcher_exited : s.watcher = WatcherPc.exited → s.exit = some (Ended.status 1)
  tr_release : s.trace.count Event.Release =
    if s.watcher = WatcherPc.atExit ∨ s.watcher = WatcherPc.exited then 1 else 0

/-- What holds of the recorded calls in every state of `Run`. -/
structure InvTrace (cfg : config.Config) (env : Env) (s : State) : Prop where
  tr_add : addWindowsCalls s.trace = if 8 ≤ s.main.rank then [s.windows] else []
  tr_handle : Event.HandleEvent ∈ s.trace → 9 ≤ s.main.rank
  tr_create : ∀ (i : Nat) (x : Conn) (r : XWindow), Event.CreateXSubWindow i x r ∈ s.trace →
    i < s.tasks.length ∧ r = env.WID
  tr_pf : ∀ (i : Nat) (f : List Nat) (g l : Bool) (w : XWindow),
    Event.PlayerFactory i f g l w ∈ s.trace →
    ∃ wc : config.Window, cfg.Windows[i]? = some wc ∧ f = wc.Flags ∧ g = cfg.Player.GPU ∧
      l = wc.LowLatency
  tr_mgr : ∀ (m : mosaic.Mosaic), Event.NewManager m ∈ s.trace →
    m = mosaic.New (selectLayout cfg)

/-- What holds of the surfaces in every state of `Run`: a startup goroutine that
has not made its `CreateXSubWindow` call has none recorded, and the local `w` of
one whose call returned without error is the id that its one call returned. -/
structure InvSurf (env : Env) (s : State) : Prop where
  none_yet : ∀ (i : Nat),
    (s.tasks[i]? = none ∨ s.tasks[i]? = some TaskPc.atCreateXSubWindow) →
    createCalls s.trace i = []
  surface : ∀ (i : Nat) (t : TaskPc) (w : XWindow), s.tasks[i]? = some t →
    t.surface = some w →
    ∃ x : Conn, createCalls s.trace i = [x] ∧
      (CreateXSubWindow env.srv x env.WID).1 = (w, none)

/-- What holds in every state of `Run`. -/
structure Inv (cfg : config.Config) (env : Env) (s : State) : Prop where
  data : InvData cfg env s
  watch : InvWatch s
  calls : InvTrace cfg env s

/-! ## Properties -/

/-! ### `CreateXSubWindow` -/

/-- C1, the code at the failing input: the server allocates id 7 and rejects the
create request with error 3, yet `CreateXSubWindow` goes on to the map request
and returns id 7 with a nil error. -/
theorem CreateXSubWindow_drops_create_error :
    (rejectingServer.NewWindowId []).2 = none ∧
    rejectingServer.Check [Request.NewWindowId] (createRequest 7 1) = some ⟨3⟩ ∧
    CreateXSubWindow rejectingServer ⟨[]⟩ 1 =
      ((7, none), ⟨[Request.NewWindowId, createRequest 7 1, Request.MapWindow 7]⟩) := by
  decide

/-- C10: on every path of `CreateXSubWindow` that returns a non-nil error the
returned id is 0; when id allocation fails with `e` the function returns
`(0, e)` at once; when the id was allocated and the map request fails with `e`,
the function returns `(0, e)` and the last call issued is the destroy request
for exactly the allocated id, right after the map request; when the id was
allocated and the map request succeeds, the function returns the allocated id
with a nil error and issues no destroy request; and whenever the returned error
is nil, the id was allocated without error and the returned id is the allocated
one. -/
theorem CreateXSubWindow_error_paths (srv : Server) (x : Conn) (root : XWindow) :
    ((CreateXSubWindow srv x root).1.2 ≠ none → (CreateXSubWindow srv x root).1.1 = 0) ∧
    (∀ e, (srv.NewWindowId x.sent).2 = some e →
      CreateXSubWindow srv x root = ((0, some e), ⟨x.sent ++ [Request.NewWindowId]⟩)) ∧
    (∀ e, (srv.NewWindowId x.sent).2 = none →
      srv.Check (x.sent ++ [Request.NewWindowId,
        createRequest (srv.NewWindowId x.sent).1 root])
        (Request.MapWindow (srv.NewWindowId x.sent).1) = some e →
      CreateXSubWindow srv x root = ((0, some e),
        ⟨x.sent ++ [Request.NewWindowId, createRequest (srv.NewWindowId x.sent).1 root,
          Request.MapWindow (srv.NewWindowId x.sent).1,
          Request.DestroyWindow (srv.NewWindowId x.sent).1]⟩)) ∧
    ((srv.NewWindowId x.sent).2 = none →
      srv.Check (x.sent ++ [Request.NewWindowId,
        createRequest (srv.NewWindowId x.sent).1 root])
        (Request.MapWindow (srv.NewWindowId x.sent).1) = none →
      CreateXSubWindow srv x root = (((srv.NewWindowId x.sent).1, none),
        ⟨x.sent ++ [Request.NewWindowId, createRequest (srv.NewWindowId x.sent).1 root,
          Request.MapWindow (srv.NewWindowId x.sent).1]⟩)) ∧
    ((CreateXSubWindow srv x root).1.2 = none →
      (srv.NewWindowId x.sent).2 = none ∧
      (CreateXSubWindow srv x root).1.1 = (srv.NewWindowId x.sent).1 ∧
      (CreateXSubWindow srv x root).2 =
        ⟨x.sent ++ [Request.NewWindowId, createRequest (srv.NewWindowId x.sent).1 root,
          Request.MapWindow (srv.NewWindowId x.sent).1]⟩) := by
  refine ⟨?_, ?_, ?_, ?_, ?_⟩
  · intro h
    unfold CreateXSubWindow at h ⊢
    simp only at h ⊢
    split_ifs at h ⊢ <;> simp_all
  · intro e h1
    simp [CreateXSubWindow, xproto.NewWindowId, h1]
  · intro e h1 h2
    simp [CreateXSubWindow, xproto.NewWindowId, xproto.CreateWindowCheckedCheck,
      xproto.MapWindowCheckedCheck, xproto.DestroyWindow, createRequest, h1] at h2 ⊢
    simp [h2]
  · intro h1 h2
    simp [CreateXSubWindow, xproto.NewWindowId, xproto.CreateWindowCheckedCheck,
      xproto.MapWindowCheckedCheck, createRequest, h1] at h2 ⊢
    simp [h2]
  · intro h
    unfold CreateXSubWindow at h ⊢
    simp only at h ⊢
    split_ifs at h ⊢ with h1 h2
    · simp_all
    · simp_all
    · simp_all [xproto.NewWindowId, xproto.CreateWindowCheckedCheck,
        xproto.MapWindowCheckedCheck, createRequest]

/-- C10 at a server that accepts the create request and rejects the map request
(the result is `(0, error 9)` and the destroy request for id 7 is issued last),
and at a server that accepts every request (the result is `(100, nil)` and no
destroy request is issued). -/
theorem CreateXSubWindow_error_paths_witness :
    (mapRejectingServer.NewWindowId []).2 = none ∧
    CreateXSubWindow mapRejectingServer ⟨[]⟩ 1 = ((0, some ⟨9⟩),
      ⟨[Request.NewWindowId, createRequest 7 1, Request.MapWindow 7,
        Request.DestroyWindow 7]⟩) ∧
    CreateXSubWindow acceptingServer ⟨[]⟩ 1 = ((100, none),
      ⟨[Request.NewWindowId, createRequest 100 1, Request.MapWindow 100]⟩) :=
  ⟨by decide, (CreateXSubWindow_error_paths mapRejectingServer ⟨[]⟩ 1).2.2.1 ⟨9⟩
    (by decide) (by decide),
   (CreateXSubWindow_error_paths acceptingServer ⟨[]⟩ 1).2.2.2.1 (by decide) (by decide)⟩

/-! ### The Grid layout -/

theorem gridColumnsFrom_pos (n fuel c : Nat) (hc : 1 ≤ c) :
    1 ≤ mosaic.gridColumnsFrom n fuel c := by
  induction fuel generalizing c with
  | zero => simpa [mosaic.gridColumnsFrom] using hc
  | succ f ih =>
    unfold mosaic.gridColumnsFrom
    split_ifs
    · exact hc
    · exact ih (c + 1) (by omega)

theorem gridColumns_pos (n : Nat) : 1 ≤ mosaic.gridColumns n :=
  gridColumnsFrom_pos n n 1 (le_refl 1)

theorem gridPiece_exists (k total p : Nat) (hk : 1 ≤ k) (hp : p < total) :
    ∃ j, j < k ∧ (mosaic.gridPiece k total j).1 ≤ p ∧
      p < (mosaic.gridPiece k total j).1 + (mosaic.gridPiece k total j).2 := by
  have hkw : k * (total / k) ≤ total := Nat.mul_div_le total k
  have hlast : (k - 1) * (total / k) ≤ total :=
    le_trans (Nat.mul_le_mul_right _ (Nat.sub_le k 1)) hkw
  have hk1 : k - 1 + 1 = k := Nat.sub_add_cancel hk
  by_cases hw : total / k = 0
  · refine ⟨k - 1, by omega, ?_, ?_⟩
    · simp [mosaic.gridPiece, hw]
    · simp [mosaic.gridPiece, hw, hk1, hp]
  · have hwpos : 0 < total / k := Nat.pos_of_ne_zero hw
    by_cases hq : p / (total / k) < k - 1
    · refine ⟨p / (total / k), by omega, ?_, ?_⟩
      · simpa [mosaic.gridPiece] using Nat.div_mul_le_self p (total / k)
      · have h1 : p / (total / k) + 1 ≠ k := by omega
        have h2 := Nat.lt_div_mul_add (a := p) hwpos
        simpa [mosaic.gridPiece, h1] using h2
    · refine ⟨k - 1, by omega, ?_, ?_⟩
      · have h1 : (k - 1) * (total / k) ≤ p / (total / k) * (total / k) :=
          Nat.mul_le_mul_right _ (by omega)
        have h2 := Nat.div_mul_le_self p (total / k)
        simpa [mosaic.gridPiece] using le_trans h1 h2
      · simp only [mosaic.gridPiece, hk1, if_true]
        omega

theorem gridPiece_unique (k total p j j2 : Nat) (hj2 : j2 < k) (hlt : j < j2)
    (h : p < (mosaic.gridPiece k total j).1 + (mosaic.gridPiece k total j).2)
    (h2 : (mosaic.gridPiece k total j2).1 ≤ p) : False := by
  have h1 : j + 1 ≠ k := by omega
  simp only [mosaic.gridPiece, h1, if_false] at h h2
  have h3 : (j + 1) * (total / k) ≤ j2 * (total / k) := Nat.mul_le_mul_right _ (by omega)
  rw [Nat.add_mul, Nat.one_mul] at h3
  omega

theorem gridPiece_inside (k total j : Nat) (hj : j < k) :
    (mosaic.gridPiece k total j).1 + (mosaic.gridPiece k total j).2 ≤ total := by
  have hkw : k * (total / k) ≤ total := Nat.mul_div_le total k
  have h3 : (j + 1) * (total / k) ≤ k * (total / k) := Nat.mul_le_mul_right _ (by omega)
  rw [Nat.add_mul, Nat.one_mul] at h3
  simp only [mosaic.gridPiece]
  generalize total / k = w at hkw h3 ⊢
  split_ifs <;> omega

theorem gridRows_bounds (n : Nat) (hn : 1 ≤ n) :
    1 ≤ mosaic.gridRows n ∧ (mosaic.gridRows n - 1) * mosaic.gridColumns n < n ∧
      n ≤ mosaic.gridRows n * mosaic.gridColumns n := by
  have hc := gridColumns_pos n
  have h1 : mosaic.gridRows n * mosaic.gridColumns n ≤ n + mosaic.gridColumns n - 1 :=
    Nat.div_mul_le_self _ _
  have h2 : n + mosaic.gridColumns n - 1 <
      mosaic.gridRows n * mosaic.gridColumns n + mosaic.gridColumns n :=
    Nat.lt_div_mul_add hc
  have h3 : (mosaic.gridRows n - 1) * mosaic.gridColumns n =
      mosaic.gridRows n * mosaic.gridColumns n - mosaic.gridColumns n := by
    rw [Nat.sub_mul, Nat.one_mul]
  have h4 : 1 ≤ mosaic.gridRows n := by
    by_contra h
    have h0 : mosaic.gridRows n = 0 := by omega
    rw [h0] at h2
    omega
  have h5 : mosaic.gridColumns n ≤ mosaic.gridRows n * mosaic.gridColumns n :=
    Nat.le_mul_of_pos_left _ h4
  refine ⟨h4, ?_, ?_⟩ <;> omega

theorem gridRowCells_pos (n row : Nat) (hn : 1 ≤ n) (hrow : row < mosaic.gridRows n) :
    1 ≤ mosaic.gridRowCells n row ∧ mosaic.gridRowCells n row ≤ mosaic.gridColumns n ∧
      row * mosaic.gridColumns n + mosaic.gridRowCells n row ≤ n := by
  obtain ⟨h1, h2, h3⟩ := gridRows_bounds n hn
  have hc := gridColumns_pos n
  unfold mosaic.gridRowCells
  split_ifs with h
  · have hr : mosaic.gridRows n - 1 = row := by omega
    rw [hr] at h2
    have h4 : mosaic.gridRows n * mosaic.gridColumns n =
        row * mosaic.gridColumns n + mosaic.gridColumns n := by
      rw [← h, Nat.add_mul, Nat.one_mul]
    omega
  · have h4 : (row + 1) * mosaic.gridColumns n ≤
        (mosaic.gridRows n - 1) * mosaic.gridColumns n :=
      Nat.mul_le_mul_right _ (by omega)
    rw [Nat.add_mul, Nat.one_mul] at h4
    omega

theorem gridIndex_row_col (n i : Nat) (hn : 1 ≤ n) (hi : i < n) :
    i / mosaic.gridColumns n < mosaic.gridRows n ∧
      i % mosaic.gridColumns n < mosaic.gridRowCells n (i / mosaic.gridColumns n) := by
  obtain ⟨h1, h2, h3⟩ := gridRows_bounds n hn
  have hc := gridColumns_pos n
  have hrow : i / mosaic.gridColumns n < mosaic.gridRows n :=
    (Nat.div_lt_iff_lt_mul hc).mpr (lt_of_lt_of_le hi h3)
  refine ⟨hrow, ?_⟩
  have hdm := Nat.div_add_mod i (mosaic.gridColumns n)
  have hm := Nat.mod_lt i hc
  rw [Nat.mul_comm] at hdm
  unfold mosaic.gridRowCells
  split_ifs with h
  · omega
  · exact hm

theorem gridRects_getElem? (n W H i : Nat) (r : Rect) :
    (mosaic.gridRects n W H)[i]? = some r ↔ i < n ∧ r = mosaic.gridCell n W H i := by
  unfold mosaic.gridRects
  rw [List.getElem?_map]
  by_cases hi : i < n
  · rw [List.getElem?_range hi]
    simp [hi, eq_comm]
  · have : (List.range n)[i]? = none := by
      rw [List.getElem?_eq_none_iff]
      simpa using hi
    simp [this, hi]

theorem gridEqual_exists (k total p : Nat) (hdiv : total % k = 0) (hp : p < total) :
    ∃ j, j < k ∧ (mosaic.gridEqual k total j).1 ≤ p ∧
      p < (mosaic.gridEqual k total j).1 + (mosaic.gridEqual k total j).2 := by
  have hkw : k * (total / k) = total := Nat.mul_div_cancel' (Nat.dvd_of_mod_eq_zero hdiv)
  have hwpos : 0 < total / k := by
    rcases Nat.eq_zero_or_pos (total / k) with h0 | h0
    · rw [h0, Nat.mul_zero] at hkw
      omega
    · exact h0
  refine ⟨p / (total / k), ?_, ?_, ?_⟩
  · rw [Nat.div_lt_iff_lt_mul hwpos, hkw]
    exact hp
  · simpa [mosaic.gridEqual] using Nat.div_mul_le_self p (total / k)
  · simpa [mosaic.gridEqual] using Nat.lt_div_mul_add (a := p) hwpos

theorem gridEqual_unique (k total p j j2 : Nat) (hlt : j < j2)
    (h : p < (mosaic.gridEqual k total j).1 + (mosaic.gridEqual k total j).2)
    (h2 : (mosaic.gridEqual k total j2).1 ≤ p) : False := by
  simp only [mosaic.gridEqual] at h h2
  have h3 : (j + 1) * (total / k) ≤ j2 * (total / k) := Nat.mul_le_mul_right _ (by omega)
  rw [Nat.add_mul, Nat.one_mul] at h3
  omega

theorem gridEqual_inside (k total j : Nat) (hj : j < k) :
    (mosaic.gridEqual k total j).1 + (mosaic.gridEqual k total j).2 ≤ total := by
  have hkw : k * (total / k) ≤ total := Nat.mul_div_le total k
  have h3 : (j + 1) * (total / k) ≤ k * (total / k) := Nat.mul_le_mul_right _ (by omega)
  rw [Nat.add_mul, Nat.one_mul] at h3
  simp only [mosaic.gridEqual]
  omega

theorem gridRects_cover (n W H px py : Nat) (hn : 1 ≤ n)
    (hcov : W % mosaic.gridColumns n = 0 ∨ mosaic.gridRows n = 1)
    (hx : px < W) (hy : py < H) :
    ∃ i, i < n ∧ (mosaic.gridCell n W H i).contains px py := by
  obtain ⟨h1, h2, h3⟩ := gridRows_bounds n hn
  have hc := gridColumns_pos n
  obtain ⟨row, hrow, hy1, hy2⟩ := gridPiece_exists (mosaic.gridRows n) H py h1 hy
  obtain ⟨hk1, hk2, hk3⟩ := gridRowCells_pos n row hn hrow
  have hcol : ∃ col, col < mosaic.gridRowCells n row ∧
      (if row + 1 = mosaic.gridRows n then mosaic.gridPiece (mosaic.gridRowCells n row) W col
        else mosaic.gridEqual (mosaic.gridColumns n) W col).1 ≤ px ∧
      px < (if row + 1 = mosaic.gridRows n then
          mosaic.gridPiece (mosaic.gridRowCells n row) W col
        else mosaic.gridEqual (mosaic.gridColumns n) W col).1 +
        (if row + 1 = mosaic.gridRows n then
          mosaic.gridPiece (mosaic.gridRowCells n row) W col
        else mosaic.gridEqual (mosaic.gridColumns n) W col).2 := by
    by_cases hlast : row + 1 = mosaic.gridRows n
    · obtain ⟨col, hcol, hx1, hx2⟩ :=
        gridPiece_exists (mosaic.gridRowCells n row) W px hk1 hx
      exact ⟨col, hcol, by simpa [hlast] using hx1, by simpa [hlast] using hx2⟩
    · have hdiv : W % mosaic.gridColumns n = 0 := by
        rcases hcov with hd | hr
        · exact hd
        · omega
      obtain ⟨col, hcol, hx1, hx2⟩ := gridEqual_exists (mosaic.gridColumns n) W px hdiv hx
      have hcells : mosaic.gridRowCells n row = mosaic.gridColumns n := by
        simp [mosaic.gridRowCells, hlast]
      exact ⟨col, by rw [hcells]; exact hcol, by simpa [hlast] using hx1,
        by simpa [hlast] using hx2⟩
  obtain ⟨col, hcol, hx1, hx2⟩ := hcol
  have hdiv : (row * mosaic.gridColumns n + col) / mosaic.gridColumns n = row := by
    apply Nat.div_eq_of_lt_le
    · omega
    · rw [Nat.add_mul, Nat.one_mul]
      omega
  have hmod : (row * mosaic.gridColumns n + col) % mosaic.gridColumns n = col := by
    rw [Nat.mul_add_mod_of_lt (by omega)]
  refine ⟨row * mosaic.gridColumns n + col, by omega, ?_⟩
  simp only [Rect.contains, mosaic.gridCell, hdiv, hmod]
  exact ⟨hx1, hx2, hy1, hy2⟩

theorem gridRects_disjoint (n W H px py i j : Nat) (hn : 1 ≤ n) (hi : i < n) (hj : j < n)
    (hci : (mosaic.gridCell n W H i).contains px py)
    (hcj : (mosaic.gridCell n W H j).contains px py) : i = j := by
  obtain ⟨hri, hki⟩ := gridIndex_row_col n i hn hi
  obtain ⟨hrj, hkj⟩ := gridIndex_row_col n j hn hj
  simp only [Rect.contains, mosaic.gridCell] at hci hcj
  have hrow : i / mosaic.gridColumns n = j / mosaic.gridColumns n := by
    rcases Nat.lt_trichotomy (i / mosaic.gridColumns n) (j / mosaic.gridColumns n) with
      h | h | h
    · exact (gridPiece_unique _ H py _ _ hrj h hci.2.2.2 hcj.2.2.1).elim
    · exact h
    · exact (gridPiece_unique _ H py _ _ hri h hcj.2.2.2 hci.2.2.1).elim
  rw [hrow] at hci hki
  have hcol : i % mosaic.gridColumns n = j % mosaic.gridColumns n := by
    by_cases hlast : j / mosaic.gridColumns n + 1 = mosaic.gridRows n
    · simp only [hlast, if_true] at hci hcj
      rcases Nat.lt_trichotomy (i % mosaic.gridColumns n) (j % mosaic.gridColumns n) with
        h | h | h
      · exact (gridPiece_unique _ W px _ _ hkj h hci.2.1 hcj.1).elim
      · exact h
      · exact (gridPiece_unique _ W px _ _ hki h hcj.2.1 hci.1).elim
    · simp only [hlast, if_false] at hci hcj
      rcases Nat.lt_trichotomy (i % mosaic.gridColumns n) (j % mosaic.gridColumns n) with
        h | h | h
      · exact (gridEqual_unique _ W px _ _ h hci.2.1 hcj.1).elim
      · exact h
      · exact (gridEqual_unique _ W px _ _ h hcj.2.1 hci.1).elim
  have h1 := Nat.div_add_mod i (mosaic.gridColumns n)
  have h2 := Nat.div_add_mod j (mosaic.gridColumns n)
  rw [hrow, hcol] at h1
  omega

theorem gridRects_inside (n W H i : Nat) (hn : 1 ≤ n) (hi : i < n) :
    (mosaic.gridCell n W H i).x + (mosaic.gridCell n W H i).width ≤ W ∧
      (mosaic.gridCell n W H i).y + (mosaic.gridCell n W H i).height ≤ H := by
  obtain ⟨hri, hki⟩ := gridIndex_row_col n i hn hi
  have hc := gridColumns_pos n
  refine ⟨?_, gridPiece_inside _ H _ hri⟩
  simp only [mosaic.gridCell]
  split_ifs
  · exact gridPiece_inside _ W _ hki
  · exact gridEqual_inside _ W _ (Nat.mod_lt i hc)

theorem inv_initial (cfg : config.Config) (env : Env) : Inv cfg env State.initial := by
  refine ⟨?_, ?_, ?_⟩ <;> constructor <;>
    simp [State.initial, MainPc.rank, unfinished, addWindowsCalls]

theorem invData_congr (cfg : config.Config) (env : Env) (s t : State)
    (h : InvData cfg env s) (h1 : t.main = s.main) (h2 : t.tasks = s.tasks)
    (h3 : t.windows = s.windows) (h4 : t.wg = s.wg) : InvData cfg env t := by
  cases s
  cases t
  simp only at h1 h2 h3 h4
  subst h1 h2 h3 h4
  exact ⟨h.tasks_le, h.tasks_nil, h.tasks_all, h.windows_len, h.wg_eq, h.past_wait, h.slot,
    h.player, h.started⟩

theorem invTrace_congr (cfg : config.Config) (env : Env) (s t : State)
    (h : InvTrace cfg env s) (h1 : t.main = s.main) (h2 : t.tasks = s.tasks)
    (h3 : t.windows = s.windows) (h4 : t.trace = s.trace) : InvTrace cfg env t := by
  cases s
  cases t
  simp only at h1 h2 h3 h4
  subst h1 h2 h3 h4
  exact ⟨h.tr_add, h.tr_handle, h.tr_create, h.tr_pf, h.tr_mgr⟩

/-- Recording a call that is none of `AddWindows`, `HandleEvent`, `CreateXSubWindow`,
`PlayerFactory`, `NewManager` keeps what holds of the recorded calls. -/
theorem invTrace_append (cfg : config.Config) (env : Env) (s t : State) (e : Event)
    (h : InvTrace cfg env s) (h1 : t.main = s.main) (h2 : t.tasks = s.tasks)
    (h3 : t.windows = s.windows) (h4 : t.trace = s.trace ++ [e])
    (he : e = Event.Release ∨ (∃ c, e = Event.Exit c) ∨ (∃ err, e = Event.Fatal err)) :
    InvTrace cfg env t := by
  cases s
  cases t
  simp only at h1 h2 h3 h4
  subst h1 h2 h3 h4
  obtain ⟨a1, a2, a3, a4, a5⟩ := h
  simp only at a1 a2 a3 a4 a5
  rcases he with he | ⟨c, he⟩ | ⟨err, he⟩ <;> subst he <;> constructor <;>
    simp only [addWindowsCalls, List.filterMap_append, List.mem_append, List.mem_singleton,
      List.filterMap_cons, List.filterMap_nil, List.append_nil, or_false, reduceCtorEq] <;>
    assumption

theorem inv_fatal (cfg : config.Config) (env : Env) (s : State) (err : XError)
    (h : Inv cfg env s) : Inv cfg env (fatal err s) := by
  refine ⟨invData_congr cfg env s _ h.data rfl rfl rfl rfl, ?_,
    invTrace_append cfg env s _ (Event.Fatal err) h.calls rfl rfl rfl rfl
      (Or.inr (Or.inr ⟨err, rfl⟩))⟩
  obtain ⟨b1, b2, b3, b4⟩ := h.watch
  constructor
  · exact b1
  · intro e he
    simp only [fatal, Option.some.injEq] at he
    exact Or.inl he.symm
  · intro _
    rfl
  · simpa [fatal, List.count_append] using b4

theorem inv_stepInterrupt (cfg : config.Config) (env : Env) (s t : State)
    (h : Inv cfg env s) (hs : stepInterrupt s = some t) : Inv cfg env t := by
  unfold stepInterrupt at hs
  split_ifs at hs with hw
  · cases hs
    refine ⟨invData_congr cfg env s _ h.data rfl rfl rfl rfl, ?_,
      invTrace_congr cfg env s _ h.calls rfl rfl rfl rfl⟩
    obtain ⟨b1, b2, b3, b4⟩ := h.watch
    constructor
    · exact b1
    · intro e he
      simp only [Option.some.injEq] at he
      exact Or.inr (Or.inl ⟨he.symm, b1.mp hw⟩)
    · intro hc
      simp only at hc
      rw [hw] at hc
      cases hc
    · exact b4
  · cases hs
    exact ⟨invData_congr cfg env s _ h.data rfl rfl rfl rfl,
      ⟨h.watch.1, h.watch.2, h.watch.3, h.watch.4⟩,
      invTrace_congr cfg env s _ h.calls rfl rfl rfl rfl⟩

theorem inv_stepWatcher (cfg : config.Config) (env : Env) (s t : State)
    (h : Inv cfg env s) (hs : stepWatcher s = some t) : Inv cfg env t := by
  obtain ⟨b1, b2, b3, b4⟩ := h.watch
  unfold stepWatcher at hs
  split at hs
  · cases hs
  · rename_i hw
    split_ifs at hs
    cases hs
    refine ⟨invData_congr cfg env s _ h.data rfl rfl rfl rfl, ?_,
      invTrace_congr cfg env s _ h.calls rfl rfl rfl rfl⟩
    rw [hw] at b1 b4
    constructor
    · simpa using b1
    · exact b2
    · intro hc
      cases hc
    · simpa using b4
  · rename_i hw
    cases hs
    refine ⟨invData_congr cfg env s _ h.data rfl rfl rfl rfl, ?_,
      invTrace_append cfg env s _ Event.Release h.calls rfl rfl rfl rfl (Or.inl rfl)⟩
    rw [hw] at b1 b4
    constructor
    · simpa using b1
    · exact b2
    · intro hc
      cases hc
    · simpa [List.count_append] using b4
  · rename_i hw
    cases hs
    refine ⟨invData_congr cfg env s _ h.data rfl rfl rfl rfl, ?_,
      invTrace_append cfg env s _ (Event.Exit 1) h.calls rfl rfl rfl rfl
        (Or.inr (Or.inl ⟨1, rfl⟩))⟩
    rw [hw] at b1 b4
    constructor
    · simpa using b1
    · intro e he
      simp only [Option.some.injEq] at he
      exact Or.inl he.symm
    · intro _
      rfl
    · simpa [List.count_append] using b4
  · cases hs

theorem unfinished_append (l : List TaskPc) (t : TaskPc) :
    unfinished (l ++ [t]) = unfinished l + (if t.isFinished then 0 else 1) := by
  induction l with
  | nil => simp [unfinished]
  | cons a l ih =>
    rw [List.cons_append]
    simp only [unfinished]
    rw [ih, Nat.add_assoc]

theorem unfinished_set (l : List TaskPc) (i : Nat) (old t : TaskPc) (h : l[i]? = some old) :
    unfinished (l.set i t) + (if old.isFinished then 0 else 1) =
      unfinished l + (if t.isFinished then 0 else 1) := by
  induction l generalizing i with
  | nil => simp at h
  | cons a l ih =>
    cases i with
    | zero =>
      simp only [List.getElem?_cons_zero, Option.some.injEq] at h
      subst h
      simp only [List.set_cons_zero, unfinished]
      omega
    | succ j =>
      simp only [List.getElem?_cons_succ] at h
      have := ih j h
      simp only [List.set_cons_succ, unfinished]
      omega

theorem unfinished_zero (l : List TaskPc) (i : Nat) (t : TaskPc) (h : unfinished l = 0)
    (ht : l[i]? = some t) : t.isFinished = true := by
  induction l generalizing i with
  | nil => simp at ht
  | cons a l ih =>
    simp only [unfinished] at h
    cases i with
    | zero =>
      simp only [List.getElem?_cons_zero, Option.some.injEq] at ht
      subst ht
      by_contra hc
      simp [hc] at h
    | succ j =>
      simp only [List.getElem?_cons_succ] at ht
      exact ih j (by omega) ht

theorem addWindowsCalls_append (t : List Event) (e : Event) :
    addWindowsCalls (t ++ [e]) = addWindowsCalls t ++ addWindowsCalls [e] := by
  simp [addWindowsCalls, List.filterMap_append]

theorem getElem?_append_single (l : List TaskPc) (a t : TaskPc) (i : Nat)
    (h : (l ++ [a])[i]? = some t) : l[i]? = some t ∨ t = a := by
  rw [List.getElem?_append] at h
  split_ifs at h with hi
  · exact Or.inl h
  · have hmem := List.getElem?_mem h
    simp at hmem
    exact Or.inr hmem

theorem inv_main_newConn (cfg : config.Config) (env : Env) (s : State)
    (h : Inv cfg env s) (hx : s.exit = none) (hm : s.main = MainPc.atNewConn) (h1 : env.NewConn = none) :
    Inv cfg env { s with main := MainPc.atCreateCursor } := by
  obtain ⟨⟨a1, a2, a3, a4, a5, a6, a7, a8, a9⟩, ⟨b1, b2, b3, b4⟩, ⟨c1, c2, c3, c4, c5⟩⟩ := h
  rw [hm] at a2 a3 a4 a6 a9 b1 c1 c2
  simp [MainPc.rank] at a2 a3 a4 a6 a9 b1 c1 c2
  refine ⟨⟨?_, ?_, ?_, ?_, ?_, ?_, ?_, ?_, ?_⟩, ⟨?_, ?_, ?_, ?_⟩, ⟨?_, ?_, ?_, ?_, ?_⟩⟩ <;>
    simp only [hm, MainPc.rank] <;>
    first
    | assumption
    | omega
    | (intro e he
       rw [hx] at he
       exact absurd he (by simp))
    | (simp [addWindowsCalls, List.filterMap_append, List.count_append] <;>
        first | assumption | omega)
    | skip
  done

theorem inv_main_createCursor (cfg : config.Config) (env : Env) (s : State)
    (h : Inv cfg env s) (hx : s.exit = none) (hm : s.main = MainPc.atCreateCursor)
    (h2 : env.CreateCursor = none) :
    Inv cfg env { s with main := MainPc.atNewManager } := by
  obtain ⟨⟨a1, a2, a3, a4, a5, a6, a7, a8, a9⟩, ⟨b1, b2, b3, b4⟩, ⟨c1, c2, c3, c4, c5⟩⟩ := h
  rw [hm] at a2 a3 a4 a6 a9 b1 c1 c2
  simp [MainPc.rank] at a2 a3 a4 a6 a9 b1 c1 c2
  refine ⟨⟨?_, ?_, ?_, ?_, ?_, ?_, ?_, ?_, ?_⟩, ⟨?_, ?_, ?_, ?_⟩, ⟨?_, ?_, ?_, ?_, ?_⟩⟩ <;>
    simp only [hm, MainPc.rank] <;>
    first
    | assumption
    | omega
    | (intro e he
       rw [hx] at he
       exact absurd he (by simp))
    | (simp [addWindowsCalls, List.filterMap_append, List.count_append] <;>
        first | assumption | omega)
    | skip
  · simp
    exact ⟨a9, h2⟩

theorem inv_main_newManager (cfg : config.Config) (env : Env) (s : State)
    (h : Inv cfg env s) (hx : s.exit = none) (hm : s.main = MainPc.atNewManager)
    (h3 : env.NewManager (mosaic.New (selectLayout cfg)) = none) :
    Inv cfg env { s with main := MainPc.atNotify,
                         trace := s.trace ++
                           [Event.NewManager (mosaic.New (selectLayout cfg))] } := by
  obtain ⟨⟨a1, a2, a3, a4, a5, a6, a7, a8, a9⟩, ⟨b1, b2, b3, b4⟩, ⟨c1, c2, c3, c4, c5⟩⟩ := h
  rw [hm] at a2 a3 a4 a6 a9 b1 c1 c2
  simp [MainPc.rank] at a2 a3 a4 a6 a9 b1 c1 c2
  refine ⟨⟨?_, ?_, ?_, ?_, ?_, ?_, ?_, ?_, ?_⟩, ⟨?_, ?_, ?_, ?_⟩, ⟨?_, ?_, ?_, ?_, ?_⟩⟩ <;>
    simp only [hm, MainPc.rank] <;>
    first
    | assumption
    | omega
    | (intro e he
       rw [hx] at he
       exact absurd he (by simp))
    | (simp [addWindowsCalls, List.filterMap_append, List.count_append] <;>
        first | assumption | omega)
    | skip
  · simp only [Nat.reduceLeDiff, true_implies]
    exact ⟨a9.1, a9.2, h3⟩
  · rw [addWindowsCalls_append, c1]
    rfl
  · intro i f g l w hmem
    simp only [List.mem_append, List.mem_singleton, reduceCtorEq, or_false] at hmem
    exact c4 i f g l w hmem
  · intro m hmem
    simp only [List.mem_append, List.mem_singleton, Event.NewManager.injEq] at hmem
    rcases hmem with hmem | hmem
    · exact c5 m hmem
    · exact hmem

theorem inv_main_newManagerCall (cfg : config.Config) (env : Env) (s : State)
    (h : Inv cfg env s) (hx : s.exit = none) (hm : s.main = MainPc.atNewManager) :
    Inv cfg env { s with trace := s.trace ++ [Event.NewManager (mosaic.New (selectLayout cfg))] } := by
  obtain ⟨⟨a1, a2, a3, a4, a5, a6, a7, a8, a9⟩, ⟨b1, b2, b3, b4⟩, ⟨c1, c2, c3, c4, c5⟩⟩ := h
  rw [hm] at a2 a3 a4 a6 a9 b1 c1 c2
  simp [MainPc.rank] at a2 a3 a4 a6 a9 b1 c1 c2
  refine ⟨⟨?_, ?_, ?_, ?_, ?_, ?_, ?_, ?_, ?_⟩, ⟨?_, ?_, ?_, ?_⟩, ⟨?_, ?_, ?_, ?_, ?_⟩⟩ <;>
    simp only [hm, MainPc.rank] <;>
    first
    | assumption
    | omega
    | (intro e he
       rw [hx] at he
       exact absurd he (by simp))
    | (simp [addWindowsCalls, List.filterMap_append, List.count_append] <;>
        first | assumption | omega)
    | skip
  · rw [addWindowsCalls_append, c1]
    rfl
  · intro i f g l w hmem
    simp only [List.mem_append, List.mem_singleton, reduceCtorEq, or_false] at hmem
    exact c4 i f g l w hmem
  · intro m hmem
    simp only [List.mem_append, List.mem_singleton, Event.NewManager.injEq] at hmem
    rcases hmem with hmem | hmem
    · exact c5 m hmem
    · exact hmem

theorem inv_main_notify (cfg : config.Config) (env : Env) (s : State)
    (h : Inv cfg env s) (hx : s.exit = none) (hm : s.main = MainPc.atNotify) :
    Inv cfg env { s with main := MainPc.atMakeWindows, watcher := WatcherPc.atReceive, c := false } := by
  obtain ⟨⟨a1, a2, a3, a4, a5, a6, a7, a8, a9⟩, ⟨b1, b2, b3, b4⟩, ⟨c1, c2, c3, c4, c5⟩⟩ := h
  rw [hm] at a2 a3 a4 a6 a9 b1 c1 c2
  simp [MainPc.rank] at a2 a3 a4 a6 a9 b1 c1 c2
  refine ⟨⟨?_, ?_, ?_, ?_, ?_, ?_, ?_, ?_, ?_⟩, ⟨?_, ?_, ?_, ?_⟩, ⟨?_, ?_, ?_, ?_, ?_⟩⟩ <;>
    simp only [hm, MainPc.rank] <;>
    first
    | assumption
    | omega
    | (intro e he
       rw [hx] at he
       exact absurd he (by simp))
    | (simp [addWindowsCalls, List.filterMap_append, List.count_append] <;>
        first | assumption | omega)
    | skip
  · rw [b1] at b4
    simpa using b4

theorem inv_main_makeWindows (cfg : config.Config) (env : Env) (s : State)
    (h : Inv cfg env s) (hx : s.exit = none) (hm : s.main = MainPc.atMakeWindows) :
    Inv cfg env { s with main := MainPc.atLoop,
                         windows := List.replicate cfg.Windows.length none,
                         wg := 0 } := by
  obtain ⟨⟨a1, a2, a3, a4, a5, a6, a7, a8, a9⟩, ⟨b1, b2, b3, b4⟩, ⟨c1, c2, c3, c4, c5⟩⟩ := h
  rw [hm] at a2 a3 a4 a6 a9 b1 c1 c2
  simp [MainPc.rank] at a2 a3 a4 a6 a9 b1 c1 c2
  refine ⟨⟨?_, ?_, ?_, ?_, ?_, ?_, ?_, ?_, ?_⟩, ⟨?_, ?_, ?_, ?_⟩, ⟨?_, ?_, ?_, ?_, ?_⟩⟩ <;>
    simp only [hm, MainPc.rank] <;>
    first
    | assumption
    | omega
    | (intro e he
       rw [hx] at he
       exact absurd he (by simp))
    | (simp [addWindowsCalls, List.filterMap_append, List.count_append] <;>
        first | assumption | omega)
    | skip
  · simp [a2, unfinished]
  · intro i t w p ht
    simp [a2] at ht

theorem inv_main_spawn (cfg : config.Config) (env : Env) (s : State)
    (h : Inv cfg env s) (hx : s.exit = none) (hm : s.main = MainPc.atLoop)
    (hl : s.tasks.length < cfg.Windows.length) :
    Inv cfg env { s with wg := s.wg + 1, tasks := s.tasks ++ [TaskPc.atCreateXSubWindow] } := by
  obtain ⟨⟨a1, a2, a3, a4, a5, a6, a7, a8, a9⟩, ⟨b1, b2, b3, b4⟩, ⟨c1, c2, c3, c4, c5⟩⟩ := h
  rw [hm] at a2 a3 a4 a6 a9 b1 c1 c2
  simp [MainPc.rank] at a2 a3 a4 a6 a9 b1 c1 c2
  refine ⟨⟨?_, ?_, ?_, ?_, ?_, ?_, ?_, ?_, ?_⟩, ⟨?_, ?_, ?_, ?_⟩, ⟨?_, ?_, ?_, ?_, ?_⟩⟩ <;>
    simp only [hm, MainPc.rank] <;>
    first
    | assumption
    | omega
    | (intro e he
       rw [hx] at he
       exact absurd he (by simp))
    | (simp [addWindowsCalls, List.filterMap_append, List.count_append] <;>
        first | assumption | omega)
    | skip
  · rw [unfinished_append, a5]
    simp [TaskPc.isFinished]
  · intro i t w p ht hst
    rcases getElem?_append_single _ _ _ _ ht with ht | ht
    · exact a7 i t w p ht hst
    · subst ht
      simp [TaskPc.stored] at hst
  · intro i t w p ht hst
    rcases getElem?_append_single _ _ _ _ ht with ht | ht
    · exact a8 i t w p ht hst
    · subst ht
      simp [TaskPc.created] at hst
  · intro i x r hmem
    have hc := c3 i x r hmem
    simp only [List.length_append, List.length_singleton]
    exact ⟨by omega, hc.2⟩

theorem inv_main_loopEnd (cfg : config.Config) (env : Env) (s : State)
    (h : Inv cfg env s) (hx : s.exit = none) (hm : s.main = MainPc.atLoop)
    (hl : ¬ s.tasks.length < cfg.Windows.length) :
    Inv cfg env { s with main := MainPc.atWait } := by
  obtain ⟨⟨a1, a2, a3, a4, a5, a6, a7, a8, a9⟩, ⟨b1, b2, b3, b4⟩, ⟨c1, c2, c3, c4, c5⟩⟩ := h
  rw [hm] at a2 a3 a4 a6 a9 b1 c1 c2
  simp [MainPc.rank] at a2 a3 a4 a6 a9 b1 c1 c2
  refine ⟨⟨?_, ?_, ?_, ?_, ?_, ?_, ?_, ?_, ?_⟩, ⟨?_, ?_, ?_, ?_⟩, ⟨?_, ?_, ?_, ?_, ?_⟩⟩ <;>
    simp only [hm, MainPc.rank] <;>
    first
    | assumption
    | omega
    | (intro e he
       rw [hx] at he
       exact absurd he (by simp))
    | (simp [addWindowsCalls, List.filterMap_append, List.count_append] <;>
        first | assumption | omega)
    | skip
  done

theorem inv_main_wait (cfg : config.Config) (env : Env) (s : State)
    (h : Inv cfg env s) (hx : s.exit = none) (hm : s.main = MainPc.atWait) (hw : s.wg = 0) :
    Inv cfg env { s with main := MainPc.atAddWindows } := by
  obtain ⟨⟨a1, a2, a3, a4, a5, a6, a7, a8, a9⟩, ⟨b1, b2, b3, b4⟩, ⟨c1, c2, c3, c4, c5⟩⟩ := h
  rw [hm] at a2 a3 a4 a6 a9 b1 c1 c2
  simp [MainPc.rank] at a2 a3 a4 a6 a9 b1 c1 c2
  refine ⟨⟨?_, ?_, ?_, ?_, ?_, ?_, ?_, ?_, ?_⟩, ⟨?_, ?_, ?_, ?_⟩, ⟨?_, ?_, ?_, ?_, ?_⟩⟩ <;>
    simp only [hm, MainPc.rank] <;>
    first
    | assumption
    | omega
    | (intro e he
       rw [hx] at he
       exact absurd he (by simp))
    | (simp [addWindowsCalls, List.filterMap_append, List.count_append] <;>
        first | assumption | omega)
    | skip
  done

theorem inv_main_addWindows (cfg : config.Config) (env : Env) (s : State)
    (h : Inv cfg env s) (hx : s.exit = none) (hm : s.main = MainPc.atAddWindows) :
    Inv cfg env { s with main := MainPc.atHandleEvent,
                         trace := s.trace ++ [Event.AddWindows s.windows] } := by
  obtain ⟨⟨a1, a2, a3, a4, a5, a6, a7, a8, a9⟩, ⟨b1, b2, b3, b4⟩, ⟨c1, c2, c3, c4, c5⟩⟩ := h
  rw [hm] at a2 a3 a4 a6 a9 b1 c1 c2
  simp [MainPc.rank] at a2 a3 a4 a6 a9 b1 c1 c2
  refine ⟨⟨?_, ?_, ?_, ?_, ?_, ?_, ?_, ?_, ?_⟩, ⟨?_, ?_, ?_, ?_⟩, ⟨?_, ?_, ?_, ?_, ?_⟩⟩ <;>
    simp only [hm, MainPc.rank] <;>
    first
    | assumption
    | omega
    | (intro e he
       rw [hx] at he
       exact absurd he (by simp))
    | (simp [addWindowsCalls, List.filterMap_append, List.count_append] <;>
        first | assumption | omega)
    | skip
  · rw [addWindowsCalls_append, c1]
    rfl
  · intro i f g l w hmem
    simp only [List.mem_append, List.mem_singleton, reduceCtorEq, or_false] at hmem
    exact c4 i f g l w hmem

theorem inv_main_handleEvent (cfg : config.Config) (env : Env) (s : State)
    (h : Inv cfg env s) (hx : s.exit = none) (hm : s.main = MainPc.atHandleEvent) :
    Inv cfg env { s with main := MainPc.inEventLoop, trace := s.trace ++ [Event.HandleEvent] } := by
  obtain ⟨⟨a1, a2, a3, a4, a5, a6, a7, a8, a9⟩, ⟨b1, b2, b3, b4⟩, ⟨c1, c2, c3, c4, c5⟩⟩ := h
  rw [hm] at a2 a3 a4 a6 a9 b1 c1 c2
  simp [MainPc.rank] at a2 a3 a4 a6 a9 b1 c1 c2
  refine ⟨⟨?_, ?_, ?_, ?_, ?_, ?_, ?_, ?_, ?_⟩, ⟨?_, ?_, ?_, ?_⟩, ⟨?_, ?_, ?_, ?_, ?_⟩⟩ <;>
    simp only [hm, MainPc.rank] <;>
    first
    | assumption
    | omega
    | (intro e he
       rw [hx] at he
       exact absurd he (by simp))
    | (simp [addWindowsCalls, List.filterMap_append, List.count_append] <;>
        first | assumption | omega)
    | skip
  · intro i f g l w hmem
    simp only [List.mem_append, List.mem_singleton, reduceCtorEq, or_false] at hmem
    exact c4 i f g l w hmem

theorem inv_main_eventLoopReturn (cfg : config.Config) (env : Env) (s : State)
    (h : Inv cfg env s) (hx : s.exit = none) (hm : s.main = MainPc.inEventLoop) :
    Inv cfg env { s with main := MainPc.atDeferRelease } := by
  obtain ⟨⟨a1, a2, a3, a4, a5, a6, a7, a8, a9⟩, ⟨b1, b2, b3, b4⟩, ⟨c1, c2, c3, c4, c5⟩⟩ := h
  rw [hm] at a2 a3 a4 a6 a9 b1 c1 c2
  simp [MainPc.rank] at a2 a3 a4 a6 a9 b1 c1 c2
  refine ⟨⟨?_, ?_, ?_, ?_, ?_, ?_, ?_, ?_, ?_⟩, ⟨?_, ?_, ?_, ?_⟩, ⟨?_, ?_, ?_, ?_, ?_⟩⟩ <;>
    simp only [hm, MainPc.rank] <;>
    first
    | assumption
    | omega
    | (intro e he
       rw [hx] at he
       exact absurd he (by simp))
    | (simp [addWindowsCalls, List.filterMap_append, List.count_append] <;>
        first | assumption | omega)
    | skip
  done

theorem inv_main_deferRelease (cfg : config.Config) (env : Env) (s : State)
    (h : Inv cfg env s) (hx : s.exit = none) (hm : s.main = MainPc.atDeferRelease) :
    Inv cfg env { s with main := MainPc.atDeferClose,
                         trace := s.trace ++ [Event.DeferredRelease] } := by
  obtain ⟨⟨a1, a2, a3, a4, a5, a6, a7, a8, a9⟩, ⟨b1, b2, b3, b4⟩, ⟨c1, c2, c3, c4, c5⟩⟩ := h
  rw [hm] at a2 a3 a4 a6 a9 b1 c1 c2
  simp [MainPc.rank] at a2 a3 a4 a6 a9 b1 c1 c2
  refine ⟨⟨?_, ?_, ?_, ?_, ?_, ?_, ?_, ?_, ?_⟩, ⟨?_, ?_, ?_, ?_⟩, ⟨?_, ?_, ?_, ?_, ?_⟩⟩ <;>
    simp only [hm, MainPc.rank] <;>
    first
    | assumption
    | omega
    | (intro e he
       rw [hx] at he
       exact absurd he (by simp))
    | (simp [addWindowsCalls, List.filterMap_append, List.count_append] <;>
        first | assumption | omega)
    | skip
  · intro i f g l w hmem
    simp only [List.mem_append, List.mem_singleton, reduceCtorEq, or_false] at hmem
    exact c4 i f g l w hmem

theorem inv_main_deferClose (cfg : config.Config) (env : Env) (s : State)
    (h : Inv cfg env s) (hx : s.exit = none) (hm : s.main = MainPc.atDeferClose) :
    Inv cfg env { s with main := MainPc.returned, trace := s.trace ++ [Event.Close] } := by
  obtain ⟨⟨a1, a2, a3, a4, a5, a6, a7, a8, a9⟩, ⟨b1, b2, b3, b4⟩, ⟨c1, c2, c3, c4, c5⟩⟩ := h
  rw [hm] at a2 a3 a4 a6 a9 b1 c1 c2
  simp [MainPc.rank] at a2 a3 a4 a6 a9 b1 c1 c2
  refine ⟨⟨?_, ?_, ?_, ?_, ?_, ?_, ?_, ?_, ?_⟩, ⟨?_, ?_, ?_, ?_⟩, ⟨?_, ?_, ?_, ?_, ?_⟩⟩ <;>
    simp only [hm, MainPc.rank] <;>
    first
    | assumption
    | omega
    | (intro e he
       rw [hx] at he
       exact absurd he (by simp))
    | (simp [addWindowsCalls, List.filterMap_append, List.count_append] <;>
        first | assumption | omega)
    | skip
  · intro i f g l w hmem
    simp only [List.mem_append, List.mem_singleton, reduceCtorEq, or_false] at hmem
    exact c4 i f g l w hmem

theorem inv_main_returned (cfg : config.Config) (env : Env) (s : State)
    (h : Inv cfg env s) (hx : s.exit = none) (hm : s.main = MainPc.returned) :
    Inv cfg env { s with exit := some (Ended.status 0) } := by
  obtain ⟨⟨a1, a2, a3, a4, a5, a6, a7, a8, a9⟩, ⟨b1, b2, b3, b4⟩, ⟨c1, c2, c3, c4, c5⟩⟩ := h
  rw [hm] at a2 a3 a4 a6 a9 b1 c1 c2
  simp [MainPc.rank] at a2 a3 a4 a6 a9 b1 c1 c2
  refine ⟨⟨?_, ?_, ?_, ?_, ?_, ?_, ?_, ?_, ?_⟩, ⟨?_, ?_, ?_, ?_⟩, ⟨?_, ?_, ?_, ?_, ?_⟩⟩ <;>
    simp only [hm, MainPc.rank] <;>
    first
    | assumption
    | omega
    | (intro e he
       rw [hx] at he
       exact absurd he (by simp))
    | (simp [addWindowsCalls, List.filterMap_append, List.count_append] <;>
        first | assumption | omega)
    | skip
  · intro hw
    have hc := b3 hw
    rw [hx] at hc
    cases hc

theorem unfinished_pos (l : List TaskPc) (i : Nat) (t : TaskPc) (ht : l[i]? = some t)
    (hf : t.isFinished = false) : 0 < unfinished l := by
  by_contra hc
  have h0 : unfinished l = 0 := by omega
  have := unfinished_zero l i t h0 ht
  simp [hf] at this

theorem invWatch_frame (s t : State) (h : InvWatch s) (h1 : t.main = s.main)
    (h2 : t.watcher = s.watcher) (h3 : t.exit = s.exit)
    (h4 : t.trace.count Event.Release = s.trace.count Event.Release) : InvWatch t := by
  obtain ⟨b1, b2, b3, b4⟩ := h
  constructor
  · rw [h1, h2]
    exact b1
  · rw [h3, h1]
    exact b2
  · rw [h2, h3]
    exact b3
  · rw [h2, h4]
    exact b4

/-- A step of startup goroutine `i` keeps what holds of the goroutines and slots. -/
theorem invData_task (cfg : config.Config) (env : Env) (s t : State) (i : Nat)
    (old new : TaskPc) (wc : config.Window) (h : InvData cfg env s)
    (hold : s.tasks[i]? = some old) (hwc : cfg.Windows[i]? = some wc)
    (hunf : old.isFinished = false) (hmain : t.main = s.main)
    (htasks : t.tasks = s.tasks.set i new)
    (hwg : t.wg = s.wg - (if new.isFinished then 1 else 0))
    (hwin : ∀ j, j ≠ i → t.windows[j]? = s.windows[j]?)
    (hwlen : t.windows.length = s.windows.length)
    (hstored : ∀ w p, new.stored = some (w, p) →
      t.windows[i]? = some (some (windowOf cfg wc w p)))
    (hcreated : ∀ w p, new.created = some (w, p) →
      mpv.NewPlayerFactory env wc.Flags cfg.Player.GPU wc.LowLatency w = (p, none)) :
    InvData cfg env t := by
  obtain ⟨a1, a2, a3, a4, a5, a6, a7, a8, a9⟩ := h
  have hpos := unfinished_pos s.tasks i old hold hunf
  have hset := unfinished_set s.tasks i old new hold
  simp only [hunf, Bool.false_eq_true, if_false] at hset
  have hne : s.tasks ≠ [] := by
    intro hnil
    simp [hnil] at hold
  have hr5 : 5 ≤ s.main.rank := by
    by_contra hc
    exact hne (a2 (by omega))
  have hr7 : s.main.rank < 7 := by
    by_contra hc
    have := a6 (by omega)
    omega
  constructor
  · rw [htasks, List.length_set]
    exact a1
  · rw [hmain]
    intro hc
    omega
  · rw [hmain, htasks, List.length_set]
    exact a3
  · rw [hmain, hwlen]
    exact a4
  · rw [hwg, htasks, a5]
    split_ifs at hset ⊢ <;> omega
  · rw [hmain]
    intro hc
    omega
  · intro j tj w p hj hst
    rw [htasks] at hj
    by_cases hij : i = j
    · subst hij
      have hlt : i < s.tasks.length := (List.getElem?_eq_some.mp hold).1
      rw [List.getElem?_set_self hlt, Option.some.injEq] at hj
      subst hj
      exact ⟨wc, hwc, hstored w p hst⟩
    · rw [List.getElem?_set_ne hij] at hj
      obtain ⟨wc2, h1, h2⟩ := a7 j tj w p hj hst
      exact ⟨wc2, h1, by rw [hwin j (fun hc => hij hc.symm)]; exact h2⟩
  · intro j tj w p hj hst
    rw [htasks] at hj
    by_cases hij : i = j
    · subst hij
      have hlt : i < s.tasks.length := (List.getElem?_eq_some.mp hold).1
      rw [List.getElem?_set_self hlt, Option.some.injEq] at hj
      subst hj
      exact ⟨wc, hwc, hcreated w p hst⟩
    · rw [List.getElem?_set_ne hij] at hj
      exact a8 j tj w p hj hst
  · rw [hmain]
    exact a9

/-- A step of a startup goroutine keeps what holds of the recorded calls. -/
theorem invTrace_task (cfg : config.Config) (env : Env) (s t : State)
    (h : InvTrace cfg env s) (hmain : t.main = s.main)
    (hlen : t.tasks.length = s.tasks.length)
    (hwin : t.windows = s.windows ∨ s.main.rank < 8)
    (htrace : t.trace = s.trace ∨
      (∃ i x, i < s.tasks.length ∧
        t.trace = s.trace ++ [Event.CreateXSubWindow i x env.WID]) ∨
      (∃ i wc w, cfg.Windows[i]? = some wc ∧ t.trace = s.trace ++
        [Event.PlayerFactory i wc.Flags cfg.Player.GPU wc.LowLatency w])) :
    InvTrace cfg env t := by
  obtain ⟨c1, c2, c3, c4, c5⟩ := h
  have hadd : addWindowsCalls t.trace = addWindowsCalls s.trace := by
    rcases htrace with ht | ⟨i, x0, _, ht⟩ | ⟨i, wc, w, _, ht⟩ <;> rw [ht]
    · rw [addWindowsCalls_append]
      simp [addWindowsCalls]
    · rw [addWindowsCalls_append]
      simp [addWindowsCalls]
  constructor
  · rw [hadd, hmain, c1]
    rcases hwin with hw | hw
    · rw [hw]
    · have h8 : ¬ 8 ≤ s.main.rank := by omega
      simp [h8]
  · rw [hmain]
    intro hmem
    apply c2
    rcases htrace with ht | ⟨i, x0, _, ht⟩ | ⟨i, wc, w, _, ht⟩ <;> rw [ht] at hmem
    · exact hmem
    · simpa using hmem
    · simpa using hmem
  · intro j x r hmem
    rw [hlen]
    rcases htrace with ht | ⟨i, x0, hi, ht⟩ | ⟨i, wc, w, _, ht⟩ <;> rw [ht] at hmem
    · exact c3 j x r hmem
    · simp only [List.mem_append, List.mem_singleton, Event.CreateXSubWindow.injEq] at hmem
      rcases hmem with hmem | ⟨h1, _, h2⟩
      · exact c3 j x r hmem
      · subst h1 h2
        exact ⟨hi, rfl⟩
    · simp only [List.mem_append, List.mem_singleton, reduceCtorEq, or_false] at hmem
      exact c3 j x r hmem
  · intro j f g l w hmem
    rcases htrace with ht | ⟨i, x0, hi, ht⟩ | ⟨i, wc, w2, hwc, ht⟩ <;> rw [ht] at hmem
    · exact c4 j f g l w hmem
    · simp only [List.mem_append, List.mem_singleton, reduceCtorEq, or_false] at hmem
      exact c4 j f g l w hmem
    · simp only [List.mem_append, List.mem_singleton, Event.PlayerFactory.injEq] at hmem
      rcases hmem with hmem | ⟨h1, h2, h3, h4, h5⟩
      · exact c4 j f g l w hmem
      · subst h1 h2 h3 h4 h5
        exact ⟨wc, hwc, rfl, rfl, rfl⟩
  · intro m hmem
    apply c5
    rcases htrace with ht | ⟨i, x0, _, ht⟩ | ⟨i, wc, w, _, ht⟩ <;> rw [ht] at hmem
    · exact hmem
    · simpa using hmem
    · simpa using hmem

theorem inv_stepTask (cfg : config.Config) (env : Env) (i : Nat) (s t : State)
    (h : Inv cfg env s) (hs : stepTask cfg env i s = some t) : Inv cfg env t := by
  unfold stepTask at hs
  split at hs
  · rename_i pc wc hpc hwc
    have hlt : i < s.tasks.length := (List.getElem?_eq_some.mp hpc).1
    have hwlt : i < cfg.Windows.length := (List.getElem?_eq_some.mp hwc).1
    cases pc with
    | atCreateXSubWindow =>
      simp only at hs
      split at hs
      · cases hs
        refine ⟨invData_task cfg env s _ i _ (TaskPc.atFatal _) wc h.data hpc hwc rfl rfl rfl
            ?_ (fun _ _ => rfl) rfl ?_ ?_,
          invWatch_frame s _ h.watch rfl rfl rfl ?_,
          invTrace_task cfg env s _ h.calls rfl ?_ (Or.inl rfl)
            (Or.inr (Or.inl ⟨i, s.x, hlt, rfl⟩))⟩
        · simp [TaskPc.isFinished]
        · intro w p hc
          simp [TaskPc.stored] at hc
        · intro w p hc
          simp [TaskPc.created] at hc
        · simp [List.count_append]
        · simp
      · cases hs
        refine ⟨invData_task cfg env s _ i _ (TaskPc.atPlayer _) wc h.data hpc hwc rfl rfl rfl
            ?_ (fun _ _ => rfl) rfl ?_ ?_,
          invWatch_frame s _ h.watch rfl rfl rfl ?_,
          invTrace_task cfg env s _ h.calls rfl ?_ (Or.inl rfl)
            (Or.inr (Or.inl ⟨i, s.x, hlt, rfl⟩))⟩
        · simp [TaskPc.isFinished]
        · intro w p hc
          simp [TaskPc.stored] at hc
        · intro w p hc
          simp [TaskPc.created] at hc
        · simp [List.count_append]
        · simp
    | atPlayer w =>
      simp only at hs
      split at hs
      · cases hs
        refine ⟨invData_task cfg env s _ i _ (TaskPc.atFatal _) wc h.data hpc hwc rfl rfl rfl
            ?_ (fun _ _ => rfl) rfl ?_ ?_,
          invWatch_frame s _ h.watch rfl rfl rfl ?_,
          invTrace_task cfg env s _ h.calls rfl ?_ (Or.inl rfl)
            (Or.inr (Or.inr ⟨i, wc, w, hwc, rfl⟩))⟩
        · simp [TaskPc.isFinished]
        · intro w p hc
          simp [TaskPc.stored] at hc
        · intro w p hc
          simp [TaskPc.created] at hc
        · simp [List.count_append]
        · simp
      · cases hs
        refine ⟨invData_task cfg env s _ i _ (TaskPc.atStore w _) wc h.data hpc hwc rfl rfl rfl
            ?_ (fun _ _ => rfl) rfl ?_ ?_,
          invWatch_frame s _ h.watch rfl rfl rfl ?_,
          invTrace_task cfg env s _ h.calls rfl ?_ (Or.inl rfl)
            (Or.inr (Or.inr ⟨i, wc, w, hwc, rfl⟩))⟩
        · simp [TaskPc.isFinished]
        · intro w p hc
          simp [TaskPc.stored] at hc
        · rename_i herr
          intro w2 p hc
          simp only [TaskPc.created, Option.some.injEq, Prod.mk.injEq] at hc
          obtain ⟨h1, h2⟩ := hc
          subst h1 h2
          exact Prod.ext rfl herr
        · simp [List.count_append]
        · simp
    | atStore w p =>
      cases hs
      have hr5 : 5 ≤ s.main.rank := by
        by_contra hc
        have := h.data.tasks_nil (by omega)
        simp [this] at hpc
      have hr7 : s.main.rank < 7 := by
        by_contra hc
        have := h.data.past_wait (by omega)
        have := unfinished_pos s.tasks i _ hpc rfl
        omega
      have hwl : i < s.windows.length := by
        rw [h.data.windows_len hr5]
        exact hwlt
      refine ⟨invData_task cfg env s _ i _ (TaskPc.atDone w p) wc h.data hpc hwc rfl rfl rfl
          ?_ ?_ ?_ ?_ ?_,
        invWatch_frame s _ h.watch rfl rfl rfl rfl,
        invTrace_task cfg env s _ h.calls rfl ?_ (Or.inr (by omega)) (Or.inl rfl)⟩
      · simp [TaskPc.isFinished]
      · intro j hj
        simp only
        rw [List.getElem?_set_ne (fun hc => hj hc.symm)]
      · simp
      · intro w2 p2 hc
        simp only [TaskPc.stored, Option.some.injEq, Prod.mk.injEq] at hc
        obtain ⟨h1, h2⟩ := hc
        subst h1 h2
        simp only
        rw [List.getElem?_set_self hwl]
        rfl
      · intro w2 p2 hc
        simp only [TaskPc.created, Option.some.injEq, Prod.mk.injEq] at hc
        obtain ⟨h1, h2⟩ := hc
        subst h1 h2
        obtain ⟨wc2, hw2, hp⟩ := h.data.player i _ w p hpc rfl
        rw [hwc, Option.some.injEq] at hw2
        subst hw2
        exact hp
      · simp
    | atDone w p =>
      cases hs
      refine ⟨invData_task cfg env s _ i _ (TaskPc.finished w p) wc h.data hpc hwc rfl rfl rfl
          ?_ (fun _ _ => rfl) rfl ?_ ?_,
        invWatch_frame s _ h.watch rfl rfl rfl rfl,
        invTrace_task cfg env s _ h.calls rfl ?_ (Or.inl rfl) (Or.inl rfl)⟩
      · simp [TaskPc.isFinished]
      · intro w2 p2 hc
        simp only [TaskPc.stored, Option.some.injEq, Prod.mk.injEq] at hc
        obtain ⟨h1, h2⟩ := hc
        subst h1 h2
        obtain ⟨wc2, hw2, hp⟩ := h.data.slot i _ w p hpc rfl
        rw [hwc, Option.some.injEq] at hw2
        subst hw2
        exact hp
      · intro w2 p2 hc
        simp only [TaskPc.created, Option.some.injEq, Prod.mk.injEq] at hc
        obtain ⟨h1, h2⟩ := hc
        subst h1 h2
        obtain ⟨wc2, hw2, hp⟩ := h.data.player i _ w p hpc rfl
        rw [hwc, Option.some.injEq] at hw2
        subst hw2
        exact hp
      · simp
    | finished w p => cases hs
    | atFatal err =>
      cases hs
      exact inv_fatal cfg env s err h
  · cases hs

theorem inv_stepMain (cfg : config.Config) (env : Env) (s t : State)
    (h : Inv cfg env s) (hx : s.exit = none) (hs : stepMain cfg env s = some t) :
    Inv cfg env t := by
  unfold stepMain at hs
  split at hs
  · rename_i hm
    split at hs
    · cases hs
      exact inv_fatal cfg env s _ h
    · rename_i he
      cases hs
      exact inv_main_newConn cfg env s h hx hm he
  · rename_i hm
    split at hs
    · cases hs
      exact inv_fatal cfg env s _ h
    · rename_i he
      cases hs
      exact inv_main_createCursor cfg env s h hx hm he
  · rename_i hm
    simp only at hs
    split at hs
    · cases hs
      exact inv_fatal cfg env _ _ (inv_main_newManagerCall cfg env s h hx hm)
    · rename_i hmgr
      cases hs
      exact inv_main_newManager cfg env s h hx hm hmgr
  · rename_i hm
    cases hs
    exact inv_main_notify cfg env s h hx hm
  · rename_i hm
    cases hs
    exact inv_main_makeWindows cfg env s h hx hm
  · rename_i hm
    split_ifs at hs with hl
    · cases hs
      exact inv_main_spawn cfg env s h hx hm hl
    · cases hs
      exact inv_main_loopEnd cfg env s h hx hm hl
  · rename_i hm
    split_ifs at hs with hw
    cases hs
    exact inv_main_wait cfg env s h hx hm hw
  · rename_i hm
    cases hs
    exact inv_main_addWindows cfg env s h hx hm
  · rename_i hm
    cases hs
    exact inv_main_handleEvent cfg env s h hx hm
  · rename_i hm
    split_ifs at hs
    cases hs
    exact inv_main_eventLoopReturn cfg env s h hx hm
  · rename_i hm
    cases hs
    exact inv_main_deferRelease cfg env s h hx hm
  · rename_i hm
    cases hs
    exact inv_main_deferClose cfg env s h hx hm
  · rename_i hm
    cases hs
    exact inv_main_returned cfg env s h hx hm

theorem inv_step (cfg : config.Config) (env : Env) (a : Actor) (s t : State)
    (h : Inv cfg env s) (hs : step cfg env a s = some t) : Inv cfg env t := by
  unfold step at hs
  split_ifs at hs with hx
  cases a with
  | main => exact inv_stepMain cfg env s t h (by simpa using hx) hs
  | watcher => exact inv_stepWatcher cfg env s t h hs
  | task i => exact inv_stepTask cfg env i s t h hs
  | interrupt => exact inv_stepInterrupt cfg env s t h hs

theorem inv_exec (cfg : config.Config) (env : Env) (sched : List Actor) (s : State)
    (h : Inv cfg env s) : Inv cfg env (exec cfg env sched s) := by
  induction sched generalizing s with
  | nil => exact h
  | cons a rest ih =>
    simp only [exec]
    apply ih
    cases hs : step cfg env a s with
    | none => exact h
    | some t => exact inv_step cfg env a s t h hs

theorem inv_Run (cfg : config.Config) (env : Env) (sched : List Actor) :
    Inv cfg env (Run cfg env sched) :=
  inv_exec cfg env sched State.initial (inv_initial cfg env)

theorem exec_append (cfg : config.Config) (env : Env) (a b : List Actor) (s : State) :
    exec cfg env (a ++ b) s = exec cfg env b (exec cfg env a s) := by
  induction a generalizing s with
  | nil => rfl
  | cons x rest ih =>
    simp only [List.cons_append, exec]
    exact ih _

theorem exec_exited (cfg : config.Config) (env : Env) (sched : List Actor) (s : State)
    (h : s.exit ≠ none) : exec cfg env sched s = s := by
  induction sched with
  | nil => rfl
  | cons a rest ih =>
    have hs : step cfg env a s = none := by
      unfold step
      rw [if_pos h]
    simp only [exec, hs, Option.getD_none]
    exact ih

/-- A startup goroutine that has taken the branch `if err != nil` stays there. -/
theorem atFatal_step (cfg : config.Config) (env : Env) (a : Actor) (s t : State) (i : Nat)
    (err : XError) (hs : step cfg env a s = some t)
    (hf : s.tasks[i]? = some (TaskPc.atFatal err)) :
    t.tasks[i]? = some (TaskPc.atFatal err) := by
  have hlt : i < s.tasks.length := (List.getElem?_eq_some.mp hf).1
  unfold step at hs
  split_ifs at hs
  cases a with
  | main =>
    simp only [stepMain] at hs
    split at hs
    any_goals (split at hs)
    all_goals first
      | (cases hs; done)
      | (cases hs; exact hf)
      | (cases hs; simp only [fatal]; exact hf)
      | (cases hs; simp only []; rw [List.getElem?_append_left hlt]; exact hf)
  | watcher =>
    simp only [stepWatcher] at hs
    split at hs
    any_goals (split at hs)
    all_goals first
      | (cases hs; done)
      | (cases hs; exact hf)
  | interrupt =>
    simp only [stepInterrupt] at hs
    split_ifs at hs
    · cases hs
      exact hf
    · cases hs
      exact hf
  | task j =>
    by_cases hij : j = i
    · subst hij
      simp only [stepTask] at hs
      split at hs
      · rename_i pc wc hpc hwc
        rw [hf, Option.some.injEq] at hpc
        subst hpc
        simp only at hs
        cases hs
        exact hf
      · cases hs
    · simp only [stepTask] at hs
      split at hs
      · rename_i pc wc hpc hwc
        cases pc <;> simp only at hs
        any_goals (split at hs)
        all_goals first
          | (cases hs; done)
          | (cases hs; simp only [fatal]; exact hf)
          | (cases hs; simp only []; rw [List.getElem?_set_ne hij]; exact hf)
      · cases hs

theorem atFatal_exec (cfg : config.Config) (env : Env) (more : List Actor) (s : State)
    (i : Nat) (err : XError) (hf : s.tasks[i]? = some (TaskPc.atFatal err)) :
    (exec cfg env more s).tasks[i]? = some (TaskPc.atFatal err) := by
  induction more generalizing s with
  | nil => exact hf
  | cons a rest ih =>
    simp only [exec]
    apply ih
    cases hs : step cfg env a s with
    | none => exact hf
    | some t => exact atFatal_step cfg env a s t i err hs hf

/-- A startup goroutine that stands at `log.Fatal` keeps `wg.Wait` from returning:
the process can only have ended with status 1. -/
theorem atFatal_status (cfg : config.Config) (env : Env) (s : State) (i : Nat) (err : XError)
    (hinv : Inv cfg env s) (hf : s.tasks[i]? = some (TaskPc.atFatal err)) :
    5 ≤ s.main.rank ∧ s.main.rank < 7 ∧ ∀ e, s.exit = some e → e = Ended.status 1 := by
  have hpos := unfinished_pos _ i _ hf rfl
  have hr7 : s.main.rank < 7 := by
    by_contra hc
    have := hinv.data.past_wait (by omega)
    omega
  have hr5 : 5 ≤ s.main.rank := by
    by_contra hc
    have hnil := hinv.data.tasks_nil (by omega)
    simp [hnil] at hf
  refine ⟨hr5, hr7, ?_⟩
  intro e he
  rcases hinv.watch.exit_code e he with h1 | ⟨_, h2⟩ | ⟨_, h2⟩
  · exact h1
  · omega
  · omega

/-- The next step of a startup goroutine whose call returned an error ends the
process with status 1. -/
theorem atFatal_exits (cfg : config.Config) (env : Env) (more : List Actor) (s : State)
    (i : Nat) (err : XError) (hinv : Inv cfg env s)
    (hf : s.tasks[i]? = some (TaskPc.atFatal err)) (hmem : Actor.task i ∈ more) :
    (exec cfg env more s).exit = some (Ended.status 1) := by
  induction more generalizing s with
  | nil => simp at hmem
  | cons a rest ih =>
    by_cases hx : s.exit = none
    · by_cases ha : a = Actor.task i
      · subst ha
        have hlt : i < s.tasks.length := (List.getElem?_eq_some.mp hf).1
        have hwlt : i < cfg.Windows.length := lt_of_lt_of_le hlt hinv.data.tasks_le
        have hwc : cfg.Windows[i]? = some cfg.Windows[i] := List.getElem?_eq_getElem hwlt
        have hs : step cfg env (Actor.task i) s = some (fatal err s) := by
          simp only [step, hx, ne_eq, not_true_eq_false, if_false, stepTask, hf, hwc]
        simp only [exec, hs, Option.getD_some]
        rw [exec_exited cfg env rest _ (by simp [fatal])]
        rfl
      · have hrest : Actor.task i ∈ rest := by
          rcases List.mem_cons.mp hmem with h | h
          · exact absurd h.symm ha
          · exact h
        simp only [exec]
        cases hs : step cfg env a s with
        | none => exact ih s hinv hf hrest
        | some t =>
          exact ih t (inv_step cfg env a s t hinv hs) (atFatal_step cfg env a s t i err hs hf)
            hrest
    · rw [exec_exited cfg env _ s hx]
      cases hc : s.exit with
      | none => exact absurd hc hx
      | some e => rw [(atFatal_status cfg env s i err hinv hf).2.2 e hc]

/-- A startup goroutine whose `CreateXSubWindow` call, or whose player factory
call, returns the error `err` stands at `log.Fatal(err)` after that step. -/
theorem call_error_reaches_fatal (cfg : config.Config) (env : Env) (s : State) (i : Nat)
    (wc : config.Window) (err : XError) (hx : s.exit = none)
    (hwc : cfg.Windows[i]? = some wc) (hi : i < s.tasks.length) :
    (s.tasks[i]? = some TaskPc.atCreateXSubWindow →
      (CreateXSubWindow env.srv s.x env.WID).1.2 = some err →
      ∃ t, step cfg env (Actor.task i) s = some t ∧
        t.tasks[i]? = some (TaskPc.atFatal err)) ∧
    (∀ w, s.tasks[i]? = some (TaskPc.atPlayer w) →
      (mpv.NewPlayerFactory env wc.Flags cfg.Player.GPU wc.LowLatency w).2 = some err →
      ∃ t, step cfg env (Actor.task i) s = some t ∧
        t.tasks[i]? = some (TaskPc.atFatal err)) := by
  refine ⟨?_, ?_⟩
  · intro hpc herr
    have hs : step cfg env (Actor.task i) s = some
        { s with x := (CreateXSubWindow env.srv s.x env.WID).2,
                 trace := s.trace ++ [Event.CreateXSubWindow i s.x env.WID],
                 tasks := s.tasks.set i (TaskPc.atFatal err) } := by
      simp only [step, hx, ne_eq, not_true_eq_false, if_false, stepTask, hpc, hwc, herr]
    exact ⟨_, hs, List.getElem?_set_self hi⟩
  · intro w hpc herr
    have hs : step cfg env (Actor.task i) s = some
        { s with trace := s.trace ++
                   [Event.PlayerFactory i wc.Flags cfg.Player.GPU wc.LowLatency w],
                 tasks := s.tasks.set i (TaskPc.atFatal err) } := by
      simp only [step, hx, ne_eq, not_true_eq_false, if_false, stepTask, hpc, hwc, herr]
    exact ⟨_, hs, List.getElem?_set_self hi⟩

/-- Once a startup goroutine stands at `log.Fatal`, `AddWindows` and `HandleEvent`
are never invoked, the process can only end with status 1, and it has ended
as soon as that goroutine has had its next turn. -/
theorem atFatal_blocks (cfg : config.Config) (env : Env) (sched more : List Actor)
    (i : Nat) (err : XError)
    (hfail : (Run cfg env sched).tasks[i]? = some (TaskPc.atFatal err)) :
    addWindowsCalls (Run cfg env (sched ++ more)).trace = [] ∧
    Event.HandleEvent ∉ (Run cfg env (sched ++ more)).trace ∧
    ((Run cfg env (sched ++ more)).exit = none ∨
      (Run cfg env (sched ++ more)).exit = some (Ended.status 1)) ∧
    (Actor.task i ∈ more → (Run cfg env (sched ++ more)).exit = some (Ended.status 1)) := by
  have hinv := inv_Run cfg env (sched ++ more)
  have hrun : Run cfg env (sched ++ more) = exec cfg env more (Run cfg env sched) :=
    exec_append cfg env sched more State.initial
  have hf : (Run cfg env (sched ++ more)).tasks[i]? = some (TaskPc.atFatal err) := by
    rw [hrun]
    exact atFatal_exec cfg env more _ i err hfail
  obtain ⟨_, hr7, hst⟩ := atFatal_status cfg env _ i err hinv hf
  refine ⟨?_, ?_, ?_, ?_⟩
  · rw [hinv.calls.tr_add, if_neg (by omega)]
  · intro hmem
    have := hinv.calls.tr_handle hmem
    omega
  · cases hc : (Run cfg env (sched ++ more)).exit with
    | none => exact Or.inl rfl
    | some e =>
      right
      rw [hst e hc]
  · intro hmem
    rw [hrun]
    exact atFatal_exits cfg env more _ i err (inv_Run cfg env sched) hfail hmem

/-- C2: when goroutine `i` of a running process makes its `CreateXSubWindow` call
or its player factory call and that call returns an error `err` for camera `i`,
then however the run goes on after the call, `manager.AddWindows` and
`xwm.HandleEvent` are never invoked, the process can only end with exit status
1, and it has ended with status 1 as soon as that goroutine has had its next
turn (`log.Fatal(err)`). -/
theorem no_partial_camera_grid (cfg : config.Config) (env : Env) (sched more : List Actor)
    (i : Nat) (wc : config.Window) (err : XError)
    (hlive : (Run cfg env sched).exit = none)
    (hwc : cfg.Windows[i]? = some wc)
    (hcall :
      ((Run cfg env sched).tasks[i]? = some TaskPc.atCreateXSubWindow ∧
        (CreateXSubWindow env.srv (Run cfg env sched).x env.WID).1.2 = some err) ∨
      (∃ w, (Run cfg env sched).tasks[i]? = some (TaskPc.atPlayer w) ∧
        (mpv.NewPlayerFactory env wc.Flags cfg.Player.GPU wc.LowLatency w).2 = some err)) :
    addWindowsCalls (Run cfg env (sched ++ Actor.task i :: more)).trace = [] ∧
    Event.HandleEvent ∉ (Run cfg env (sched ++ Actor.task i :: more)).trace ∧
    ((Run cfg env (sched ++ Actor.task i :: more)).exit = none ∨
      (Run cfg env (sched ++ Actor.task i :: more)).exit = some (Ended.status 1)) ∧
    (Actor.task i ∈ more →
      (Run cfg env (sched ++ Actor.task i :: more)).exit = some (Ended.status 1)) := by
  have hi : i < (Run cfg env sched).tasks.length := by
    rcases hcall with ⟨h, _⟩ | ⟨w, h, _⟩ <;> exact (List.getElem?_eq_some.mp h).1
  have hbranch := call_error_reaches_fatal cfg env (Run cfg env sched) i wc err hlive hwc hi
  have hstep : ∃ t, step cfg env (Actor.task i) (Run cfg env sched) = some t ∧
      t.tasks[i]? = some (TaskPc.atFatal err) := by
    rcases hcall with ⟨h1, h2⟩ | ⟨w, h1, h2⟩
    · exact hbranch.1 h1 h2
    · exact hbranch.2 w h1 h2
  obtain ⟨t, ht, hfat⟩ := hstep
  have hrun1 : Run cfg env (sched ++ [Actor.task i]) = t := by
    have h1 : Run cfg env (sched ++ [Actor.task i]) =
        exec cfg env [Actor.task i] (Run cfg env sched) :=
      exec_append cfg env sched [Actor.task i] State.initial
    rw [h1]
    simp only [exec, ht, Option.getD_some]
  have hsched : sched ++ Actor.task i :: more = (sched ++ [Actor.task i]) ++ more := by
    simp
  rw [hsched]
  exact atFatal_blocks cfg env (sched ++ [Actor.task i]) more i err (by rw [hrun1]; exact hfat)

/-- C2 at two runs of two cameras: in the first `CreateXSubWindow` returns error 9
for camera 0, in the second the player factory returns error 5 for camera 0;
after the call, an interrupt and the next turn of that goroutine the process
has ended with status 1. -/
theorem no_partial_camera_grid_witness :
    ((Run cfgAuto2 failEnv (List.replicate 6 Actor.main)).tasks[0]? =
        some TaskPc.atCreateXSubWindow ∧
      (Run cfgAuto2 failEnv
        (List.replicate 6 Actor.main ++ Actor.task 0 :: [Actor.interrupt, Actor.task 0])).exit =
        some (Ended.status 1)) ∧
    ((Run cfgAuto2 playerFailEnv schedFirstTask).tasks[0]? = some (TaskPc.atPlayer 100) ∧
      (Run cfgAuto2 playerFailEnv
        (schedFirstTask ++ Actor.task 0 :: [Actor.interrupt, Actor.task 0])).exit =
        some (Ended.status 1)) :=
  ⟨⟨by decide, (no_partial_camera_grid cfgAuto2 failEnv (List.replicate 6 Actor.main)
      [Actor.interrupt, Actor.task 0] 0 ⟨[1], false, r10, r10⟩ ⟨9⟩ (by decide) (by decide)
      (Or.inl ⟨by decide, by decide⟩)).2.2.2 (by decide)⟩,
   ⟨by decide, (no_partial_camera_grid cfgAuto2 playerFailEnv schedFirstTask
      [Actor.interrupt, Actor.task 0] 0 ⟨[1], false, r10, r10⟩ ⟨5⟩ (by decide) (by decide)
      (Or.inr ⟨100, by decide, by decide⟩)).2.2.2 (by decide)⟩⟩

theorem finished_of_unfinished_zero (l : List TaskPc) (i : Nat) (h : unfinished l = 0)
    (hi : i < l.length) : ∃ w p, l[i]? = some (TaskPc.finished w p) := by
  have ht : l[i]? = some l[i] := List.getElem?_eq_getElem hi
  have hfin := unfinished_zero l i _ h ht
  cases hpc : l[i] with
  | finished w p => exact ⟨w, p, by rw [ht, hpc]⟩
  | atCreateXSubWindow => rw [hpc] at hfin; simp [TaskPc.isFinished] at hfin
  | atPlayer w => rw [hpc] at hfin; simp [TaskPc.isFinished] at hfin
  | atStore w p => rw [hpc] at hfin; simp [TaskPc.isFinished] at hfin
  | atDone w p => rw [hpc] at hfin; simp [TaskPc.isFinished] at hfin
  | atFatal e => rw [hpc] at hfin; simp [TaskPc.isFinished] at hfin

/-- What holds once `AddWindows` has been called: every startup goroutine has
finished and slot `i` holds the window goroutine `i` built. -/
theorem after_addWindows (cfg : config.Config) (env : Env) (s : State) (h : Inv cfg env s)
    (ws : List (Option Window)) (hws : ws ∈ addWindowsCalls s.trace) :
    ws = s.windows ∧ ws.length = cfg.Windows.length ∧
    s.tasks.length = cfg.Windows.length ∧
    ∀ (i : Nat) (wc : config.Window), cfg.Windows[i]? = some wc →
      ∃ w p, s.tasks[i]? = some (TaskPc.finished w p) ∧
        mpv.NewPlayerFactory env wc.Flags cfg.Player.GPU wc.LowLatency w = (p, none) ∧
        ws[i]? = some (some (NewWindow w (NewPlayerCache p) wc.Main wc.Sub cfg.Background)) := by
  rw [h.calls.tr_add] at hws
  split_ifs at hws with hr
  · simp only [List.mem_singleton] at hws
    subst hws
    have hlen := h.data.tasks_all (by omega)
    refine ⟨rfl, h.data.windows_len (by omega), hlen, ?_⟩
    intro i wc hwc
    have hi : i < s.tasks.length := by
      rw [hlen]
      exact (List.getElem?_eq_some.mp hwc).1
    obtain ⟨w, p, hfin⟩ := finished_of_unfinished_zero s.tasks i (h.data.past_wait (by omega)) hi
    obtain ⟨wc1, h1, hp⟩ := h.data.player i _ w p hfin rfl
    obtain ⟨wc2, h2, hslot⟩ := h.data.slot i _ w p hfin rfl
    rw [hwc, Option.some.injEq] at h1 h2
    subst h1 h2
    exact ⟨w, p, hfin, hp, hslot⟩
  · simp at hws

/-- C4: in every run, `manager.AddWindows` has been invoked at most once, and
exactly once as soon as the main goroutine is past the call; a startup
goroutine that is at or past `wg.Done()` has written its slot; and whenever the
call has been made, all `len(cfg.Windows)` startup goroutines had finished
(their `wg.Done()` came after their slot write) and every slot of the slice
handed over holds a stored Window. -/
theorem startup_barrier (cfg : config.Config) (env : Env) (sched : List Actor) :
    (addWindowsCalls (Run cfg env sched).trace).length ≤ 1 ∧
    (8 ≤ (Run cfg env sched).main.rank →
      addWindowsCalls (Run cfg env sched).trace = [(Run cfg env sched).windows]) ∧
    (∀ (i : Nat) (t : TaskPc) (w : XWindow) (p : Player),
      (Run cfg env sched).tasks[i]? = some t → t.stored = some (w, p) →
      ∃ win, (Run cfg env sched).windows[i]? = some (some win)) ∧
    (∀ ws, ws ∈ addWindowsCalls (Run cfg env sched).trace →
      ws.length = cfg.Windows.length ∧
      (Run cfg env sched).tasks.length = cfg.Windows.length ∧
      ∀ i, i < cfg.Windows.length →
        (∃ w p, (Run cfg env sched).tasks[i]? = some (TaskPc.finished w p)) ∧
        (∃ win, ws[i]? = some (some win))) := by
  have hinv := inv_Run cfg env sched
  refine ⟨?_, ?_, ?_, ?_⟩
  · rw [hinv.calls.tr_add]
    split_ifs <;> simp
  · intro hr
    rw [hinv.calls.tr_add, if_pos hr]
  · intro i t w p ht hst
    obtain ⟨wc, _, hslot⟩ := hinv.data.slot i t w p ht hst
    exact ⟨_, hslot⟩
  · intro ws hws
    obtain ⟨_, h2, h3, h4⟩ := after_addWindows cfg env _ hinv ws hws
    refine ⟨h2, h3, ?_⟩
    intro i hi
    obtain ⟨w, p, hfin, _, hslot⟩ := h4 i cfg.Windows[i] (List.getElem?_eq_getElem hi)
    exact ⟨⟨w, p, hfin⟩, ⟨_, hslot⟩⟩

/-- C4 at a run of two windows whose startup goroutines finish in the order 1, 0:
the main goroutine is past the call and `AddWindows` was invoked once. -/
theorem startup_barrier_witness :
    8 ≤ (Run cfgAuto2 okEnv schedSeq2).main.rank ∧
    addWindowsCalls (Run cfgAuto2 okEnv schedSeq2).trace =
      [(Run cfgAuto2 okEnv schedSeq2).windows] :=
  ⟨by decide, (startup_barrier cfgAuto2 okEnv schedSeq2).2.1 (by decide)⟩

/-- A step of startup goroutine `i` leaves every slot other than `i` as it was. -/
theorem stepTask_other_slots (cfg : config.Config) (env : Env) (s t : State) (i j : Nat)
    (hs : stepTask cfg env i s = some t) (hj : j ≠ i) :
    t.windows[j]? = s.windows[j]? ∧ t.windows.length = s.windows.length := by
  simp only [stepTask] at hs
  split at hs
  · rename_i pc wc hpc hwc
    cases pc <;> simp only at hs
    any_goals (split at hs)
    all_goals first
      | (cases hs; done)
      | (cases hs; exact ⟨rfl, rfl⟩)
      | (cases hs; simp only [fatal]; exact ⟨rfl, rfl⟩)
      | (cases hs; simp only []
         exact ⟨List.getElem?_set_ne (fun hc => hj hc.symm), List.length_set _ _ _⟩)
  · cases hs

theorem createCalls_append (t : List Event) (e : Event) (i : Nat) :
    createCalls (t ++ [e]) i = createCalls t i ++ createCalls [e] i := by
  simp [createCalls, List.filterMap_append]

/-- A step that records no `CreateXSubWindow` call of goroutine `i` and leaves each
goroutine where it was, starts it, or moves it on without changing its surface,
keeps what holds of the surfaces. -/
theorem invSurf_frame (env : Env) (s t : State) (h : InvSurf env s)
    (htrace : ∀ i : Nat, createCalls t.trace i = createCalls s.trace i)
    (htasks : ∀ i : Nat, t.tasks[i]? = s.tasks[i]? ∨
      (s.tasks[i]? = none ∧ t.tasks[i]? = some TaskPc.atCreateXSubWindow) ∨
      (∃ a b : TaskPc, s.tasks[i]? = some a ∧ t.tasks[i]? = some b ∧
        b ≠ TaskPc.atCreateXSubWindow ∧ ∀ w, b.surface = some w → a.surface = some w)) :
    InvSurf env t := by
  constructor
  · intro i hi
    rw [htrace]
    rcases htasks i with h1 | ⟨h1, _⟩ | ⟨a, b, _, h2, h3, _⟩
    · rw [h1] at hi
      exact h.none_yet i hi
    · exact h.none_yet i (Or.inl h1)
    · rw [h2] at hi
      rcases hi with hi | hi
      · cases hi
      · rw [Option.some.injEq] at hi
        exact absurd hi h3
  · intro i b w hb hw
    rw [htrace]
    rcases htasks i with h1 | ⟨_, h1⟩ | ⟨a, b2, h1, h2, _, h4⟩
    · rw [h1] at hb
      exact h.surface i b w hb hw
    · rw [h1, Option.some.injEq] at hb
      subst hb
      simp [TaskPc.surface] at hw
    · rw [h2, Option.some.injEq] at hb
      subst hb
      exact h.surface i a w h1 (h4 w hw)

theorem invSurf_fatal (env : Env) (s : State) (err : XError) (h : InvSurf env s) :
    InvSurf env (fatal err s) := by
  apply invSurf_frame env s _ h
  · intro i
    simp only [fatal]
    rw [createCalls_append]
    simp [createCalls]
  · intro i
    exact Or.inl rfl

theorem getElem?_set_cases (l : List TaskPc) (j i : Nat) (a b : TaskPc)
    (hj : l[j]? = some a) :
    (i ≠ j ∧ (l.set j b)[i]? = l[i]?) ∨ (i = j ∧ l[i]? = some a ∧ (l.set j b)[i]? = some b) := by
  by_cases hij : i = j
  · subst hij
    right
    exact ⟨rfl, hj, List.getElem?_set_self (List.getElem?_eq_some.mp hj).1⟩
  · left
    exact ⟨hij, List.getElem?_set_ne (fun hc => hij hc.symm)⟩

theorem invSurf_stepTask (cfg : config.Config) (env : Env) (j : Nat) (s t : State)
    (h : InvSurf env s) (hs : stepTask cfg env j s = some t) : InvSurf env t := by
  simp only [stepTask] at hs
  split at hs
  · rename_i pc wc hpc hwc
    cases pc with
    | atCreateXSubWindow =>
      simp only at hs
      have hnone := h.none_yet j (Or.inr hpc)
      have hcalls : ∀ i, createCalls (s.trace ++ [Event.CreateXSubWindow j s.x env.WID]) i =
          if j = i then createCalls s.trace i ++ [s.x] else createCalls s.trace i := by
        intro i
        rw [createCalls_append]
        by_cases hji : j = i <;> simp [createCalls, hji]
      split at hs
      · rename_i err herr
        cases hs
        constructor
        · intro i hi
          simp only at hi ⊢
          rw [hcalls]
          rcases getElem?_set_cases s.tasks j i _ (TaskPc.atFatal err) hpc with
            ⟨hne, h1⟩ | ⟨_, _, h1⟩
          · rw [h1] at hi
            rw [if_neg (fun hc => hne hc.symm)]
            exact h.none_yet i hi
          · rw [h1] at hi
            simp at hi
        · intro i b w hb hw
          simp only at hb ⊢
          rw [hcalls]
          rcases getElem?_set_cases s.tasks j i _ (TaskPc.atFatal err) hpc with
            ⟨hne, h1⟩ | ⟨_, _, h1⟩
          · rw [h1] at hb
            rw [if_neg (fun hc => hne hc.symm)]
            exact h.surface i b w hb hw
          · rw [h1, Option.some.injEq] at hb
            subst hb
            simp [TaskPc.surface] at hw
      · rename_i herr
        cases hs
        constructor
        · intro i hi
          simp only at hi ⊢
          rw [hcalls]
          rcases getElem?_set_cases s.tasks j i _
            (TaskPc.atPlayer (CreateXSubWindow env.srv s.x env.WID).1.1) hpc with
            ⟨hne, h1⟩ | ⟨_, _, h1⟩
          · rw [h1] at hi
            rw [if_neg (fun hc => hne hc.symm)]
            exact h.none_yet i hi
          · rw [h1] at hi
            simp at hi
        · intro i b w hb hw
          simp only at hb ⊢
          rw [hcalls]
          rcases getElem?_set_cases s.tasks j i _
            (TaskPc.atPlayer (CreateXSubWindow env.srv s.x env.WID).1.1) hpc with
            ⟨hne, h1⟩ | ⟨heq, _, h1⟩
          · rw [h1] at hb
            rw [if_neg (fun hc => hne hc.symm)]
            exact h.surface i b w hb hw
          · rw [h1, Option.some.injEq] at hb
            subst hb heq
            simp only [TaskPc.surface, Option.some.injEq] at hw
            subst hw
            rw [if_pos rfl, hnone]
            exact ⟨s.x, rfl, Prod.ext rfl herr⟩
    | atPlayer w =>
      simp only at hs
      split at hs
      · cases hs
        apply invSurf_frame env s _ h
        · intro i
          simp only
          rw [createCalls_append]
          simp [createCalls]
        · intro i
          simp only
          rcases getElem?_set_cases s.tasks j i _ (TaskPc.atFatal _) hpc with
            ⟨_, h1⟩ | ⟨_, h0, h1⟩
          · exact Or.inl h1
          · exact Or.inr (Or.inr ⟨_, _, h0, h1, by simp, by simp [TaskPc.surface]⟩)
      · cases hs
        apply invSurf_frame env s _ h
        · intro i
          simp only
          rw [createCalls_append]
          simp [createCalls]
        · intro i
          simp only
          rcases getElem?_set_cases s.tasks j i _ (TaskPc.atStore w _) hpc with
            ⟨_, h1⟩ | ⟨_, h0, h1⟩
          · exact Or.inl h1
          · exact Or.inr (Or.inr ⟨_, _, h0, h1, by simp, by simp [TaskPc.surface]⟩)
    | atStore w p =>
      cases hs
      apply invSurf_frame env s _ h
      · intro i
        rfl
      · intro i
        simp only
        rcases getElem?_set_cases s.tasks j i _ (TaskPc.atDone w p) hpc with
          ⟨_, h1⟩ | ⟨_, h0, h1⟩
        · exact Or.inl h1
        · exact Or.inr (Or.inr ⟨_, _, h0, h1, by simp, by simp [TaskPc.surface]⟩)
    | atDone w p =>
      cases hs
      apply invSurf_frame env s _ h
      · intro i
        rfl
      · intro i
        simp only
        rcases getElem?_set_cases s.tasks j i _ (TaskPc.finished w p) hpc with
          ⟨_, h1⟩ | ⟨_, h0, h1⟩
        · exact Or.inl h1
        · exact Or.inr (Or.inr ⟨_, _, h0, h1, by simp, by simp [TaskPc.surface]⟩)
    | finished w p => cases hs
    | atFatal err =>
      cases hs
      exact invSurf_fatal env s err h
  · cases hs

theorem invSurf_stepMain (cfg : config.Config) (env : Env) (s t : State)
    (h : InvSurf env s) (hs : stepMain cfg env s = some t) : InvSurf env t := by
  simp only [stepMain] at hs
  split at hs
  any_goals (split at hs)
  all_goals first
    | (cases hs; done)
    | (cases hs; exact invSurf_fatal env _ _ h)
    | (cases hs
       apply invSurf_frame env s _ h
       · intro i
         first
         | rfl
         | (simp only []
            rw [createCalls_append]
            simp [createCalls])
       · intro i
         exact Or.inl rfl)
    | skip
  · cases hs
    apply invSurf_fatal
    apply invSurf_frame env s _ h
    · intro i
      simp only []
      rw [createCalls_append]
      simp [createCalls]
    · intro i
      exact Or.inl rfl
  · cases hs
    apply invSurf_frame env s _ h
    · intro i
      rfl
    · intro i
      simp only []
      rcases Nat.lt_trichotomy i s.tasks.length with hi | hi | hi
      · exact Or.inl (List.getElem?_append_left hi)
      · subst hi
        exact Or.inr (Or.inl ⟨List.getElem?_eq_none (le_refl _), by simp⟩)
      · left
        rw [List.getElem?_eq_none (by simp; omega), List.getElem?_eq_none (by omega)]

theorem invSurf_step (cfg : config.Config) (env : Env) (a : Actor) (s t : State)
    (h : InvSurf env s) (hs : step cfg env a s = some t) : InvSurf env t := by
  unfold step at hs
  split_ifs at hs
  cases a with
  | main => exact invSurf_stepMain cfg env s t h hs
  | task i => exact invSurf_stepTask cfg env i s t h hs
  | watcher =>
    simp only [stepWatcher] at hs
    split at hs
    any_goals (split at hs)
    all_goals first
      | (cases hs; done)
      | (cases hs
         apply invSurf_frame env s _ h
         · intro i
           first
           | rfl
           | (simp only []
              rw [createCalls_append]
              simp [createCalls])
         · intro i
           exact Or.inl rfl)
  | interrupt =>
    simp only [stepInterrupt] at hs
    split_ifs at hs
    · cases hs
      exact invSurf_frame env s _ h (fun _ => rfl) (fun _ => Or.inl rfl)
    · cases hs
      exact invSurf_frame env s _ h (fun _ => rfl) (fun _ => Or.inl rfl)

theorem invSurf_exec (cfg : config.Config) (env : Env) (sched : List Actor) (s : State)
    (h : InvSurf env s) : InvSurf env (exec cfg env sched s) := by
  induction sched generalizing s with
  | nil => exact h
  | cons a rest ih =>
    simp only [exec]
    apply ih
    cases hs : step cfg env a s with
    | none => exact h
    | some t => exact invSurf_step cfg env a s t h hs

theorem invSurf_Run (cfg : config.Config) (env : Env) (sched : List Actor) :
    InvSurf env (Run cfg env sched) := by
  apply invSurf_exec
  constructor
  · intro i _
    rfl
  · intro i t w ht
    simp [State.initial] at ht


/-- C5, as stated, fails: the surface ids come from the one shared connection in
the order of the `CreateXSubWindow` calls, so with a server that hands out ids
in call order the run in which goroutine 1 completes first and the run in which
goroutine 0 completes first hand different sequences to `AddWindows` (surfaces
103, 100 against 100, 103). -/
theorem completion_order_changes_result :
    (addWindowsCalls (Run cfgAuto2 okEnv schedSeq2).trace).length = 1 ∧
    (addWindowsCalls (Run cfgAuto2 okEnv schedSeq2b).trace).length = 1 ∧
    (Run cfgAuto2 okEnv schedSeq2).windows.map (fun w => w.map Window.surfaceId) =
      [some 103, some 100] ∧
    (Run cfgAuto2 okEnv schedSeq2b).windows.map (fun w => w.map Window.surfaceId) =
      [some 100, some 103] ∧
    addWindowsCalls (Run cfgAuto2 okEnv schedSeq2).trace ≠
      addWindowsCalls (Run cfgAuto2 okEnv schedSeq2b).trace := by
  decide

/-- C5, amended: the sequence handed to `AddWindows` has exactly `len(cfg.Windows)`
entries, and the entry at position `i` is the Window built by startup goroutine
`i` from `cfg.Windows[i].Main`, `cfg.Windows[i].Sub`, the surface `w` that its one
`CreateXSubWindow` call returned (with a nil error) and the cached Player that
its player factory returned for `w`; a step of goroutine `i` changes no slot
other than `i` (and not the length); so the sequence depends on the
interleaving only through the surface ids: two runs in which the
`CreateXSubWindow` call of every goroutine returned the same id hand over the
same sequence. -/
theorem declaration_order (cfg : config.Config) (env : Env) (sched : List Actor) :
    (∀ ws, ws ∈ addWindowsCalls (Run cfg env sched).trace →
      ws.length = cfg.Windows.length ∧
      ∀ (i : Nat) (wc : config.Window), cfg.Windows[i]? = some wc →
        ∃ (w : XWindow) (p : Player) (x : Conn),
          createCalls (Run cfg env sched).trace i = [x] ∧
          (CreateXSubWindow env.srv x env.WID).1 = (w, none) ∧
          mpv.NewPlayerFactory env wc.Flags cfg.Player.GPU wc.LowLatency w = (p, none) ∧
          (Run cfg env sched).tasks[i]? = some (TaskPc.finished w p) ∧
          ws[i]? = some (some (NewWindow w (NewPlayerCache p) wc.Main wc.Sub
            cfg.Background))) ∧
    (∀ (s t : State) (i j : Nat), stepTask cfg env i s = some t → j ≠ i →
      t.windows[j]? = s.windows[j]? ∧ t.windows.length = s.windows.length) ∧
    (∀ (sched2 : List Actor) (ws ws2 : List (Option Window)),
      ws ∈ addWindowsCalls (Run cfg env sched).trace →
      ws2 ∈ addWindowsCalls (Run cfg env sched2).trace →
      (∀ (i : Nat) (x x2 : Conn),
        createCalls (Run cfg env sched).trace i = [x] →
        createCalls (Run cfg env sched2).trace i = [x2] →
        (CreateXSubWindow env.srv x env.WID).1.1 = (CreateXSubWindow env.srv x2 env.WID).1.1) →
      ws = ws2) := by
  have hmain : ∀ (sch : List Actor) (ws : List (Option Window)),
      ws ∈ addWindowsCalls (Run cfg env sch).trace →
      ws.length = cfg.Windows.length ∧
      ∀ (i : Nat) (wc : config.Window), cfg.Windows[i]? = some wc →
        ∃ (w : XWindow) (p : Player) (x : Conn),
          createCalls (Run cfg env sch).trace i = [x] ∧
          (CreateXSubWindow env.srv x env.WID).1 = (w, none) ∧
          mpv.NewPlayerFactory env wc.Flags cfg.Player.GPU wc.LowLatency w = (p, none) ∧
          (Run cfg env sch).tasks[i]? = some (TaskPc.finished w p) ∧
          ws[i]? = some (some (NewWindow w (NewPlayerCache p) wc.Main wc.Sub
            cfg.Background)) := by
    intro sch ws hws
    obtain ⟨_, h2, _, h4⟩ := after_addWindows cfg env _ (inv_Run cfg env sch) ws hws
    refine ⟨h2, ?_⟩
    intro i wc hwc
    obtain ⟨w, p, hfin, hp, hslot⟩ := h4 i wc hwc
    obtain ⟨x, hx1, hx2⟩ := (invSurf_Run cfg env sch).surface i _ w hfin rfl
    exact ⟨w, p, x, hx1, hx2, hp, hfin, hslot⟩
  refine ⟨hmain sched, ?_, ?_⟩
  · intro s t i j hs hj
    exact stepTask_other_slots cfg env s t i j hs hj
  · intro sched2 ws ws2 hws hws2 hsame
    obtain ⟨h2, h4⟩ := hmain sched ws hws
    obtain ⟨k2, k4⟩ := hmain sched2 ws2 hws2
    apply List.ext_getElem?
    intro i
    by_cases hi : i < cfg.Windows.length
    · obtain ⟨w, p, x, hx1, hx2, hp, _, hslot⟩ :=
        h4 i cfg.Windows[i] (List.getElem?_eq_getElem hi)
      obtain ⟨w2, p2, x2, kx1, kx2, kp, _, kslot⟩ :=
        k4 i cfg.Windows[i] (List.getElem?_eq_getElem hi)
      have hw := hsame i x x2 hx1 kx1
      rw [hx2, kx2] at hw
      simp only at hw
      subst hw
      rw [hp, Prod.mk.injEq] at kp
      obtain ⟨kp1, _⟩ := kp
      subst kp1
      rw [hslot, kslot]
    · rw [List.getElem?_eq_none (by omega), List.getElem?_eq_none (by omega)]

/-- C5 at a run of two windows whose startup goroutines finish in the order 1, 0:
two entries are handed over. -/
theorem declaration_order_witness :
    [(Run cfgAuto2 okEnv schedSeq2).windows] =
      addWindowsCalls (Run cfgAuto2 okEnv schedSeq2).trace ∧
    (Run cfgAuto2 okEnv schedSeq2).windows.length = 2 :=
  ⟨by decide, ((declaration_order cfgAuto2 okEnv schedSeq2).1
    (Run cfgAuto2 okEnv schedSeq2).windows (by decide)).1⟩

/-- The signal channel holds a signal only once the watcher has been started. -/
theorem chan_step (cfg : config.Config) (env : Env) (a : Actor) (s t : State)
    (h : s.c = true → s.watcher ≠ WatcherPc.notStarted) (hs : step cfg env a s = some t) :
    t.c = true → t.watcher ≠ WatcherPc.notStarted := by
  simp only [step] at hs
  split_ifs at hs
  cases a with
  | watcher =>
    simp only [stepWatcher] at hs
    split at hs
    any_goals (split at hs)
    all_goals first
      | (cases hs; done)
      | (cases hs; simp)
  | interrupt =>
    simp only [stepInterrupt] at hs
    split_ifs at hs with hw
    · cases hs
      exact h
    · cases hs
      intro _
      exact hw
  | task i =>
    simp only [stepTask] at hs
    split at hs
    · rename_i pc wc hpc hwc
      cases pc <;> simp only at hs
      any_goals (split at hs)
      all_goals first
        | (cases hs; done)
        | (cases hs; exact h)
    · cases hs
  | main =>
    simp only [stepMain] at hs
    split at hs
    any_goals (split at hs)
    all_goals first
      | (cases hs; done)
      | (cases hs; exact h)
      | (cases hs; simp)

theorem chan_exec (cfg : config.Config) (env : Env) (sched : List Actor) (s : State)
    (h : s.c = true → s.watcher ≠ WatcherPc.notStarted) :
    (exec cfg env sched s).c = true → (exec cfg env sched s).watcher ≠ WatcherPc.notStarted := by
  induction sched generalizing s with
  | nil => exact h
  | cons a rest ih =>
    simp only [exec]
    apply ih
    cases hs : step cfg env a s with
    | none => exact h
    | some t => exact chan_step cfg env a s t h hs

/-- C6, as stated, fails twice over. First, an interrupt delivered after
`xwm.NewManager` has returned but before `signal.Notify` kills the process: the
watcher does not exist yet and `manager.Release` is never called. Second, an
interrupt delivered after `signal.Notify` is in the channel when the startup
goroutine of camera 0, whose `CreateXSubWindow` call had failed, reaches
`log.Fatal`: the process ends with status 1 and the watcher never calls
`manager.Release`, although it is given three turns. -/
theorem interrupt_without_release :
    (Event.NewManager ⟨mosaic.Layout.Grid 2⟩ ∈ (Run cfgAuto2 okEnv schedManager).trace ∧
      (Run cfgAuto2 okEnv schedManager).main = MainPc.atNotify ∧
      (Run cfgAuto2 okEnv schedManager).exit = none ∧
      (Run cfgAuto2 okEnv (schedManager ++ [Actor.interrupt, Actor.watcher, Actor.watcher,
        Actor.watcher])).exit = some (Ended.killed SIGINT) ∧
      (Run cfgAuto2 okEnv (schedManager ++ [Actor.interrupt, Actor.watcher, Actor.watcher,
        Actor.watcher])).trace.count Event.Release = 0) ∧
    ((Run cfgAuto2 failEnv (schedFirstTask ++ [Actor.interrupt])).c = true ∧
      (Run cfgAuto2 failEnv (schedFirstTask ++ [Actor.interrupt])).watcher =
        WatcherPc.atReceive ∧
      (Run cfgAuto2 failEnv (schedFirstTask ++ [Actor.interrupt])).exit = none ∧
      (Run cfgAuto2 failEnv schedRace).exit = some (Ended.status 1) ∧
      (Run cfgAuto2 failEnv schedRace).trace.count Event.Release = 0) := by
  decide

/-- C6, amended: whenever an interrupt signal is delivered after `signal.Notify`
(the watcher exists), it is put into the channel and the process goes on, and
the signal stays in the channel until the watcher takes it; when a signal is in
the channel and the process has not ended, the three steps of the watcher are:
receive, one `manager.Release`, `os.Exit(1)`; in every run the watcher calls
`manager.Release` at most once and has ended the process only after exactly one
such call and with exit status 1; and a step of the watcher changes nothing of
the main goroutine, the startup goroutines, the `windows` slice, the wait group
or the connection. -/
theorem interrupt_handling (cfg : config.Config) (env : Env) (sched : List Actor) :
    ((Run cfg env sched).watcher ≠ WatcherPc.notStarted → (Run cfg env sched).exit = none →
      ∃ t, step cfg env Actor.interrupt (Run cfg env sched) = some t ∧ t.c = true ∧
        t.exit = none) ∧
    (∀ (a : Actor) (t : State), a ≠ Actor.watcher →
      step cfg env a (Run cfg env sched) = some t → (Run cfg env sched).c = true →
      t.c = true ∧ t.watcher = (Run cfg env sched).watcher) ∧
    (∀ (s : State), s.exit = none → s.c = true → s.watcher = WatcherPc.atReceive →
      (exec cfg env [Actor.watcher, Actor.watcher, Actor.watcher] s).exit =
        some (Ended.status 1) ∧
      (exec cfg env [Actor.watcher, Actor.watcher, Actor.watcher] s).trace =
        s.trace ++ [Event.Release, Event.Exit 1]) ∧
    (Run cfg env sched).trace.count Event.Release ≤ 1 ∧
    ((Run cfg env sched).watcher = WatcherPc.exited →
      (Run cfg env sched).trace.count Event.Release = 1 ∧
      (Run cfg env sched).exit = some (Ended.status 1)) ∧
    (∀ (s t : State), step cfg env Actor.watcher s = some t →
      t.main = s.main ∧ t.tasks = s.tasks ∧ t.windows = s.windows ∧ t.wg = s.wg ∧
      t.x = s.x) := by
  have hinv := inv_Run cfg env sched
  refine ⟨?_, ?_, ?_, ?_, ?_, ?_⟩
  · intro hw hx
    refine ⟨{ Run cfg env sched with c := true }, ?_, rfl, hx⟩
    simp only [step, hx, ne_eq, not_true_eq_false, if_false, stepInterrupt, hw]
  · intro a t ha hs hc
    have hstarted := hinv.watch.watcher_started
    have hchan := chan_exec cfg env sched State.initial (by simp [State.initial])
    simp only [step] at hs
    split_ifs at hs
    cases a with
    | watcher => exact absurd rfl ha
    | interrupt =>
      simp only [stepInterrupt] at hs
      split_ifs at hs
      · cases hs
        exact ⟨hc, rfl⟩
      · cases hs
        exact ⟨rfl, rfl⟩
    | task i =>
      simp only [stepTask] at hs
      split at hs
      · rename_i pc wc hpc hwc
        cases pc <;> simp only at hs
        any_goals (split at hs)
        all_goals first
          | (cases hs; done)
          | (cases hs; exact ⟨hc, rfl⟩)
      · cases hs
    | main =>
      simp only [stepMain] at hs
      split at hs
      any_goals (split at hs)
      all_goals first
        | (cases hs; done)
        | (cases hs; exact ⟨hc, rfl⟩)
        | (rename_i hm
           have h1 := hchan hc
           have h2 := hstarted.mpr (by rw [hm]; decide)
           exact absurd h2 h1)
  · intro s hx hc hw
    simp [exec, step, stepWatcher, hx, hc, hw]
  · rw [hinv.watch.tr_release]
    split_ifs <;> omega
  · intro hw
    refine ⟨?_, hinv.watch.watcher_exited hw⟩
    rw [hinv.watch.tr_release, if_pos (Or.inr hw)]
  · intro s t hs
    simp only [step] at hs
    split_ifs at hs
    simp only [stepWatcher] at hs
    split at hs
    any_goals (split at hs)
    all_goals first
      | (cases hs; done)
      | (cases hs; exact ⟨rfl, rfl, rfl, rfl, rfl⟩)

/-- C6 at a run in which an interrupt is delivered right after the first startup
goroutine was started and nothing fails: the signal is in the channel, and
three watcher steps end the process with status 1 after one `Release`. -/
theorem interrupt_handling_witness :
    (Run cfgAuto2 okEnv (List.replicate 6 Actor.main ++ [Actor.interrupt])).c = true ∧
    (exec cfgAuto2 okEnv [Actor.watcher, Actor.watcher, Actor.watcher]
      (Run cfgAuto2 okEnv (List.replicate 6 Actor.main ++ [Actor.interrupt]))).exit =
      some (Ended.status 1) :=
  ⟨by decide, ((interrupt_handling cfgAuto2 okEnv []).2.2.1
    (Run cfgAuto2 okEnv (List.replicate 6 Actor.main ++ [Actor.interrupt]))
    (by decide) (by decide) (by decide)).1⟩

/-- C3: for every configuration document with a manual layout whose number of
manual Rects differs from the number of configured windows, `initConfig` ends
the process with the configuration error and status 1 (`log.Fatalf`) before
`Run` is entered: no `CreateXSubWindow` call, no `AddWindows` call, no request
on the connection, no slot; and a document whose layout is automatic or whose
counts agree is handed to `Run` unchanged. -/
theorem manual_layout_validation (zero doc : config.Config) (env : Env)
    (sched : List Actor) :
    (doc.Layout.IsAuto = false → doc.LayoutManualWindows.length ≠ doc.Windows.length →
      initConfig zero (ConfigFile.read doc) = Except.error config.ErrLayoutCount ∧
      (Main zero (ConfigFile.read doc) env sched).exit = some (Ended.status 1) ∧
      (Main zero (ConfigFile.read doc) env sched).trace =
        [Event.Fatal config.ErrLayoutCount] ∧
      (∀ (i : Nat) (x : Conn) (r : XWindow),
        Event.CreateXSubWindow i x r ∉ (Main zero (ConfigFile.read doc) env sched).trace) ∧
      addWindowsCalls (Main zero (ConfigFile.read doc) env sched).trace = [] ∧
      (Main zero (ConfigFile.read doc) env sched).x = ⟨[]⟩ ∧
      (Main zero (ConfigFile.read doc) env sched).windows = []) ∧
    ((doc.Layout.IsAuto = true ∨ doc.LayoutManualWindows.length = doc.Windows.length) →
      Main zero (ConfigFile.read doc) env sched = Run doc env sched) := by
  refine ⟨?_, ?_⟩
  · intro hmanual hne
    have hdec : (config.Decode doc).2 = some config.ErrLayoutCount := by
      simp [config.Decode, hmanual, hne]
    have hinit : initConfig zero (ConfigFile.read doc) =
        Except.error config.ErrLayoutCount := by
      simp only [initConfig, hdec]
    have hmain : Main zero (ConfigFile.read doc) env sched =
        fatal config.ErrLayoutCount State.initial := by
      simp only [Main, hinit]
    rw [hmain]
    refine ⟨hinit, rfl, rfl, ?_, rfl, rfl, rfl⟩
    intro i x r hmem
    simp [fatal, State.initial] at hmem
  · intro hok
    have hdec : (config.Decode doc).2 = none := by
      rcases hok with h | h
      · simp [config.Decode, h]
      · simp [config.Decode, h]
    have hinit : initConfig zero (ConfigFile.read doc) = Except.ok doc := by
      simp only [initConfig, hdec]
      rfl
    simp only [Main, hinit]

/-- C3 at the document with two manual Rects and three windows (the process ends
with status 1 under a schedule that would otherwise create three surfaces), and
at the document with three manual Rects and three windows (handed to `Run`). -/
theorem manual_layout_validation_witness :
    (cfgManual3.LayoutManualWindows.length = 2 ∧ cfgManual3.Windows.length = 3 ∧
      (Main cfgAuto2 (ConfigFile.read cfgManual3) okEnv schedSeq3).exit =
        some (Ended.status 1)) ∧
    Main cfgAuto2 (ConfigFile.read cfgManualOk) okEnv schedSeq3 =
      Run cfgManualOk okEnv schedSeq3 :=
  ⟨⟨by decide, by decide,
    ((manual_layout_validation cfgAuto2 cfgManual3 okEnv schedSeq3).1
      (by decide) (by decide)).2.1⟩,
   (manual_layout_validation cfgAuto2 cfgManualOk okEnv schedSeq3).2 (Or.inr (by decide))⟩

/-- C8: every layout given to `NewManager` is, when the configured layout is the
automatic marker, the Grid variant with count `len(cfg.Windows)` (and not a
Manual one), and otherwise the Manual variant carrying `cfg.LayoutManualWindows`
unchanged (and not a Grid one); and when the connection and the cursor are
created, the third step of the main goroutine makes that `NewManager` call. -/
theorem layout_selection (cfg : config.Config) (env : Env) (sched : List Actor) :
    (∀ (m : mosaic.Mosaic), Event.NewManager m ∈ (Run cfg env sched).trace →
      (cfg.Layout.IsAuto = true →
        m.layout = mosaic.Layout.Grid cfg.Windows.length ∧
        ∀ rects, m.layout ≠ mosaic.Layout.Manual rects) ∧
      (cfg.Layout.IsAuto = false →
        m.layout = mosaic.Layout.Manual cfg.LayoutManualWindows ∧
        ∀ n, m.layout ≠ mosaic.Layout.Grid n)) ∧
    (env.NewConn = none → env.CreateCursor = none →
      ∃ m, Event.NewManager m ∈ (Run cfg env [Actor.main, Actor.main, Actor.main]).trace) := by
  refine ⟨?_, ?_⟩
  · intro m hm
    have h := (inv_Run cfg env sched).calls.tr_mgr m hm
    subst h
    refine ⟨?_, ?_⟩
    · intro ha
      simp [mosaic.New, selectLayout, ha, mosaic.NewLayoutGridCount]
    · intro ha
      simp [mosaic.New, selectLayout, ha, mosaic.NewLayoutManual]
  · intro hnc hcc
    refine ⟨mosaic.New (selectLayout cfg), ?_⟩
    cases hm : env.NewManager (mosaic.New (selectLayout cfg)) <;>
      simp [Run, exec, step, stepMain, State.initial, fatal, hnc, hcc, hm]

/-- C8 at a manual configuration: the manager is given the two configured Rects. -/
theorem layout_selection_witness :
    Event.NewManager ⟨mosaic.Layout.Manual [r10, ⟨10, 0, 10, 10⟩]⟩ ∈
      (Run cfgManual3 okEnv schedSeq3).trace ∧
    (⟨mosaic.Layout.Manual [r10, ⟨10, 0, 10, 10⟩]⟩ : mosaic.Mosaic).layout =
      mosaic.Layout.Manual cfgManual3.LayoutManualWindows :=
  ⟨by decide, (((layout_selection cfgManual3 okEnv schedSeq3).1
    ⟨mosaic.Layout.Manual [r10, ⟨10, 0, 10, 10⟩]⟩ (by decide)).2 (by decide)).1⟩

/-- C9, as stated, fails: two configurations with the same `Windows` entries and the
same player setting, differing only in the global `Background`, lead under the
same schedule to different Windows for camera 0 (background 0 and 5). -/
theorem background_is_global :
    (cfgOne 0).Windows = (cfgOne 5).Windows ∧ (cfgOne 0).Player = (cfgOne 5).Player ∧
    (Run (cfgOne 0) okEnv schedSeq1).windows[0]? = some (some
      (NewWindow 100 (NewPlayerCache (Player.mpv [4] true true 100)) r10 ⟨2, 2, 3, 3⟩ 0)) ∧
    (Run (cfgOne 5) okEnv schedSeq1).windows[0]? = some (some
      (NewWindow 100 (NewPlayerCache (Player.mpv [4] true true 100)) r10 ⟨2, 2, 3, 3⟩ 5)) ∧
    addWindowsCalls (Run (cfgOne 0) okEnv schedSeq1).trace ≠
      addWindowsCalls (Run (cfgOne 5) okEnv schedSeq1).trace := by
  decide

/-- C9, amended: for every index `i`, the player factory for camera `i` is called
with that camera's own flags and low-latency toggle and the global player GPU
setting, the Player is what that factory returns for the surface of camera `i`,
and the Window is built from that surface, the cached Player, the camera's own
main and sub Rects and the global `cfg.Background`: the globally shared
settings passed in are the player GPU setting and the background fill. -/
theorem per_window_settings (cfg : config.Config) (env : Env) (sched : List Actor) :
    (∀ (i : Nat) (f : List Nat) (g l : Bool) (w : XWindow),
      Event.PlayerFactory i f g l w ∈ (Run cfg env sched).trace →
      ∃ wc : config.Window, cfg.Windows[i]? = some wc ∧ f = wc.Flags ∧
        g = cfg.Player.GPU ∧ l = wc.LowLatency) ∧
    (∀ (i : Nat) (t : TaskPc) (w : XWindow) (p : Player),
      (Run cfg env sched).tasks[i]? = some t → t.created = some (w, p) →
      ∃ wc : config.Window, cfg.Windows[i]? = some wc ∧
        p = (mpv.NewPlayerFactory env wc.Flags cfg.Player.GPU wc.LowLatency w).1) ∧
    (∀ (i : Nat) (t : TaskPc) (w : XWindow) (p : Player),
      (Run cfg env sched).tasks[i]? = some t → t.stored = some (w, p) →
      ∃ wc : config.Window, cfg.Windows[i]? = some wc ∧
        (Run cfg env sched).windows[i]? =
          some (some (NewWindow w (NewPlayerCache p) wc.Main wc.Sub cfg.Background))) := by
  have hinv := inv_Run cfg env sched
  refine ⟨hinv.calls.tr_pf, ?_, hinv.data.slot⟩
  intro i t w p ht hc
  obtain ⟨wc, h1, h2⟩ := hinv.data.player i t w p ht hc
  exact ⟨wc, h1, by rw [h2]⟩

/-- C9 at a run of one window with background 5: the player factory is called with
the flags and toggle of entry 0 and the global GPU setting. -/
theorem per_window_settings_witness :
    Event.PlayerFactory 0 [4] true true 100 ∈ (Run (cfgOne 5) okEnv schedSeq1).trace ∧
    ∃ wc : config.Window, (cfgOne 5).Windows[0]? = some wc ∧ [4] = wc.Flags ∧
      true = (cfgOne 5).Player.GPU ∧ true = wc.LowLatency :=
  ⟨by decide, (per_window_settings (cfgOne 5) okEnv schedSeq1).1 0 [4] true true 100
    (by decide)⟩

end XIpcViewer
